import Mathlib

/-!
Verification of the IVAkit flow runtime core against its specification.

The definitions below are a shallow embedding of the runtime sources:
  - packages/shared/src/utils/index.ts   (interpolate, findNode, getNextNodes,
    evaluateCondition, cloneSession)
  - packages/runtime/src/handlers.ts     (node handlers, validateInput)
  - packages/runtime/src/executor.ts     (NodeExecutor.execute)
  - packages/runtime/src/engine.ts       (FlowEngine: startSession, processInput,
    executeFlow)

JavaScript dynamic values are modelled by `JsValue`; JS numbers are modelled
as rationals (no claim below depends on binary floating-point rounding, and
the non-finite value NaN is modelled as `Option.none` where it matters).
Wall-clock timestamps, random id generation, the event bus and `delay`
sleeps are external effects with no bearing on the verified state; they are
omitted or passed in as parameters, as noted at each definition.
-/

namespace IVAkit

/-- Model of a JavaScript runtime value as stored in flow configs and
session variables (JSON-shaped data). `undef` is JavaScript `undefined`,
distinct from `null`. -/
inductive JsValue : Type where
  | undef : JsValue
  | null : JsValue
  | bool : Bool → JsValue
  | num : ℚ → JsValue
  | str : String → JsValue
  | arr : List JsValue → JsValue
  | obj : List (String × JsValue) → JsValue

/-- JS `String(q)` for a number: integers print without a decimal point.
Decimal formatting of non-integer rationals is approximated by the `ℚ`
printer; no theorem below depends on that formatting. -/
def ratToJsString (q : ℚ) : String :=
  if q.den = 1 then toString q.num else toString q

mutual

/-- JS `String(v)` coercion. Arrays stringify by joining element strings
with commas (`Array.prototype.toString`), with `null`/`undefined` elements
contributing the empty string; plain objects stringify to
`"[object Object]"`. -/
def jsToString : JsValue → String
  | .undef => "undefined"
  | .null => "null"
  | .bool true => "true"
  | .bool false => "false"
  | .num q => ratToJsString q
  | .str s => s
  | .arr xs => String.intercalate "," (jsArrayElemStrings xs)
  | .obj _ => "[object Object]"

/-- Element strings used by `Array.prototype.join`. -/
def jsArrayElemStrings : List JsValue → List String
  | [] => []
  | .undef :: xs => "" :: jsArrayElemStrings xs
  | .null :: xs => "" :: jsArrayElemStrings xs
  | x :: xs => jsToString x :: jsArrayElemStrings xs

end

/-- The whitespace characters stripped by JS `Number(string)` coercion
(ASCII whitespace plus no-break space; rarer Unicode space classes are not
used by any flow in this repository). -/
def isJsSpace (c : Char) : Bool :=
  c = ' ' || c = '\t' || c = '\n' || c = '\r' || c = '\x0b' || c = '\x0c' || c = ' '

/-- Numeric value of a list of decimal digits (48 is the code of `0`). -/
def digitsVal (ds : List Char) : Nat :=
  ds.foldl (fun acc c => 10 * acc + (c.toNat - 48)) 0

/-- Split a leading run of decimal digits. -/
def takeDigits (cs : List Char) : List Char × List Char :=
  (cs.takeWhile Char.isDigit, cs.dropWhile Char.isDigit)

/-- Value of a digit in the given radix, if valid: decimal digits map
from code 48, lower-case letters from code 87 (`a` is 10), upper-case
from 55 (`A` is 10); anything mapping at or beyond the radix is
rejected, which for radix 16 accepts exactly `0-9a-fA-F`. -/
def radixDigitVal (radix : Nat) (c : Char) : Option Nat :=
  let d :=
    if c.isDigit then c.toNat - 48
    else if 'a' ≤ c && c ≤ 'z' then c.toNat - 87
    else if 'A' ≤ c && c ≤ 'Z' then c.toNat - 55
    else 255
  if d < radix then some d else none

/-- Parse a non-empty all-digits string in the given radix
(JS `0x` / `0o` / `0b` literal bodies). -/
def parseRadix (radix : Nat) (cs : List Char) : Option ℚ :=
  match cs with
  | [] => none
  | _ =>
    cs.foldl
      (fun acc c =>
        match acc, radixDigitVal radix c with
        | some a, some d => some (a * radix + d)
        | _, _ => none)
      (some 0) |>.map (fun n => (n : ℚ))

/-- Parse the optional exponent suffix of a JS decimal literal and apply it
to the mantissa `m`; the whole remainder must be consumed. -/
def parseExpPart (cs : List Char) (m : ℚ) : Option ℚ :=
  match cs with
  | [] => some m
  | c :: r =>
    if c = 'e' || c = 'E' then
      let (sign, r2) : ℚ × List Char :=
        match r with
        | '+' :: r2 => (1, r2)
        | '-' :: r2 => (-1, r2)
        | _ => (1, r)
      let (ds, r3) := takeDigits r2
      if ds.isEmpty || !r3.isEmpty then none
      else if sign = 1 then some (m * 10 ^ digitsVal ds)
      else some (m / 10 ^ digitsVal ds)
    else none

/-- Parse an unsigned JS decimal literal `D+ | D+.D* | .D+`, with optional
exponent. Returns `none` for NaN. -/
def parseJsUnsigned (cs : List Char) : Option ℚ :=
  let (ip, r1) := takeDigits cs
  match r1 with
  | '.' :: r2 =>
    let (fp, r3) := takeDigits r2
    if ip.isEmpty && fp.isEmpty then none
    else parseExpPart r3 ((digitsVal ip : ℚ) + (digitsVal fp : ℚ) / 10 ^ fp.length)
  | _ =>
    if ip.isEmpty then none
    else parseExpPart r1 (digitsVal ip : ℚ)

/-- Trimmed body of JS `Number(string)`: empty means `0`; radix prefixes
are unsigned; otherwise an optionally signed decimal literal. The
`Infinity` spellings are outside the fragment used by these flows and map
to `none` here. -/
def parseJsNumberBody (cs : List Char) : Option ℚ :=
  match cs with
  | [] => some 0
  | '0' :: 'x' :: rest => parseRadix 16 rest
  | '0' :: 'X' :: rest => parseRadix 16 rest
  | '0' :: 'o' :: rest => parseRadix 8 rest
  | '0' :: 'O' :: rest => parseRadix 8 rest
  | '0' :: 'b' :: rest => parseRadix 2 rest
  | '0' :: 'B' :: rest => parseRadix 2 rest
  | '+' :: rest => parseJsUnsigned rest
  | '-' :: rest => (parseJsUnsigned rest).map (fun q => -q)
  | _ => parseJsUnsigned cs

/-- JS `Number(string)` coercion; `none` models NaN. -/
def parseJsNumber (s : String) : Option ℚ :=
  parseJsNumberBody (((s.toList.dropWhile isJsSpace).reverse.dropWhile isJsSpace).reverse)

/-- JS `Number(v)` coercion of a runtime value; `none` models NaN.
Arrays coerce through their string form; plain objects coerce through
`"[object Object]"`, i.e. NaN. -/
def jsToNumber : JsValue → Option ℚ
  | .undef => none
  | .null => some 0
  | .bool b => some (if b then 1 else 0)
  | .num q => some q
  | .str s => parseJsNumber s
  | .arr xs => parseJsNumber (jsToString (.arr xs))
  | .obj _ => none

/-- JS strict equality `===` on the modelled values. Arrays and objects
compare by reference in JS; the runtime only ever compares a session value
against a value from the flow config, which are always distinct references,
so reference equality is modelled as `false`. -/
def jsStrictEq : JsValue → JsValue → Bool
  | .undef, .undef => true
  | .null, .null => true
  | .bool a, .bool b => a == b
  | .num a, .num b => a == b
  | .str a, .str b => a == b
  | _, _ => false

/-- JS truthiness of a value. -/
def jsTruthy : JsValue → Bool
  | .undef => false
  | .null => false
  | .bool b => b
  | .num q => q != 0
  | .str s => s != ""
  | .arr _ => true
  | .obj _ => true

/-- `String(v ?? '')` as used by `evaluateCondition`: nullish values
become the empty string before `String` coercion. -/
def jsCoalesceStr : JsValue → String
  | .undef => ""
  | .null => ""
  | v => jsToString v

/-- Whether a value is `null` or `undefined`. -/
def isNullish : JsValue → Bool
  | .undef => true
  | .null => true
  | _ => false

/-- Truthiness of an optional string config field (JS: absent and the empty
string are both falsy). -/
def strOptTruthy : Option String → Bool
  | none => false
  | some s => s != ""

/-- Session / flow variables: a JS object modelled as an association list
with unique keys kept in insertion order. -/
abbrev Vars := List (String × JsValue)

/-- `vars[k]`: JS property read, `undefined` when the key is missing. -/
def getVar (vars : Vars) (k : String) : JsValue :=
  match vars.find? (fun p => p.1 == k) with
  | some p => p.2
  | none => JsValue.undef

/-- `vars[k] = v`: JS property write (overwrites in place, appends new
keys at the end, as JS objects preserve insertion order). -/
def setVar (vars : Vars) (k : String) (v : JsValue) : Vars :=
  if vars.any (fun p => p.1 == k) then
    vars.map (fun p => if p.1 == k then (k, v) else p)
  else vars ++ [(k, v)]

/-- `Object.assign(vars, patch)`: shallow overwrite of each patch key in
order. -/
def assignVars (vars : Vars) (patch : Vars) : Vars :=
  patch.foldl (fun acc p => setVar acc p.1 p.2) vars

/-- A character of the regex class `\w` (`[A-Za-z0-9_]`). -/
def isWordChar (c : Char) : Bool :=
  c.isAlpha || c.isDigit || c = '_'

/-- Given the characters after an opening `\x7b\x7b`, match the rest of a
`\x7b\x7b\w+\x7d\x7d` token of `interpolate`: a non-empty run of word
characters followed by `\x7d\x7d`. Returns the name and the remainder.
(`\w` contains neither brace, so the greedy match needs no backtracking.) -/
def matchToken (cs : List Char) : Option (String × List Char) :=
  if (cs.takeWhile isWordChar).isEmpty then none
  else
    match cs.dropWhile isWordChar with
    | '\x7d' :: '\x7d' :: rest => some (String.mk (cs.takeWhile isWordChar), rest)
    | _ => none

lemma matchToken_length {cs : List Char} {name : String} {rest : List Char}
    (h : matchToken cs = some (name, rest)) : rest.length + 1 < cs.length := by
  have hsplit := List.takeWhile_append_dropWhile isWordChar cs
  have hlen := congrArg List.length hsplit
  rw [List.length_append] at hlen
  unfold matchToken at h
  split at h
  · exact absurd h (by simp)
  · next hne =>
    split at h
    · next rest2 heq =>
      have hr : rest2 = rest := by
        injection h with h1
        exact congrArg Prod.snd h1
      subst hr
      have hpos : 0 < (cs.takeWhile isWordChar).length := by
        cases hcs : cs.takeWhile isWordChar with
        | nil => rw [hcs] at hne; simp at hne
        | cons a l => simp
      rw [heq] at hlen
      simp [List.length_cons] at hlen
      omega
    · exact absurd h (by simp)

/-- Core of `interpolate`
(shared/src/utils/index.ts:
`template.replace(/\x7b\x7b(\w+)\x7d\x7d/g, ...)`): scan left to right;
at each position try to match a `\x7b\x7b\w+\x7d\x7d` token; a matched
token whose variable is `undefined` or `null` is kept verbatim, any other
match is replaced by the JS string form of the variable; all other
characters pass through. The extra `Nat` is structural-recursion fuel:
every step consumes at least one character, so any fuel ≥ the character
count gives the scan's behaviour (the fuel-exhausted branch is
unreachable then; see `interpolateFuel_ge`). -/
def interpolateFuel (vars : Vars) : Nat → List Char → List Char
  | _, [] => []
  | 0, cs => cs
  | fuel + 1, '\x7b' :: '\x7b' :: rest =>
    match matchToken rest with
    | some (name, rest2) =>
      match getVar vars name with
      | .undef => '\x7b' :: '\x7b' :: (name.toList ++ '\x7d' :: '\x7d' :: interpolateFuel vars fuel rest2)
      | .null => '\x7b' :: '\x7b' :: (name.toList ++ '\x7d' :: '\x7d' :: interpolateFuel vars fuel rest2)
      | v => (jsToString v).toList ++ interpolateFuel vars fuel rest2
    | none => '\x7b' :: interpolateFuel vars fuel ('\x7b' :: rest)
  | fuel + 1, c :: rest => c :: interpolateFuel vars fuel rest

/-- `interpolate(template, variables)` from shared/src/utils/index.ts. -/
def interpolate (template : String) (vars : Vars) : String :=
  String.mk (interpolateFuel vars template.toList.length template.toList)

/-- A segment of a template as the specification describes it: either a
literal character outside any token, or one `\x7b\x7b name \x7d\x7d`
token. -/
inductive TemplateSeg : Type where
  | lit : Char → TemplateSeg
  | tok : String → TemplateSeg

/-- Decomposition of a template into literal characters and
`\x7b\x7b\w+\x7d\x7d` tokens, scanning left to right exactly like the
global regex replace. This is the specification-side view of a template. -/
def tokenizeTemplate : List Char → List TemplateSeg
  | [] => []
  | '\x7b' :: '\x7b' :: rest =>
    match h : matchToken rest with
    | some (name, rest2) => .tok name :: tokenizeTemplate rest2
    | none => .lit '\x7b' :: tokenizeTemplate ('\x7b' :: rest)
  | c :: rest => .lit c :: tokenizeTemplate rest
termination_by cs => cs.length
decreasing_by
  all_goals first
    | (have hml := matchToken_length h; simp only [List.length_cons]; omega)
    | (simp only [List.length_cons]; omega)

/-- Modelled from the spec: rendering of one template segment.
A literal character is unchanged; a token is replaced by the string form
of its variable, or kept textually intact when the variable is absent or
bound to null. -/
def renderSeg (vars : Vars) : TemplateSeg → List Char
  | .lit c => [c]
  | .tok name =>
    if isNullish (getVar vars name) then
      '\x7b' :: '\x7b' :: (name.toList ++ ['\x7d', '\x7d'])
    else (jsToString (getVar vars name)).toList

/-- Modelled from the spec: `interpolate` as the specification words it —
substitute every token independently, leave everything else unchanged. -/
def interpolateSpec (template : String) (vars : Vars) : String :=
  String.mk (((tokenizeTemplate template.toList).map (renderSeg vars)).flatten)

/-- Environment of JS built-ins that the runtime reaches through
`new RegExp(pattern).test(input)` with a pattern taken from flow data.
`regexTest pattern input = none` models the constructor throwing on an
invalid pattern; `some b` is the test result. The two fixed regex
literals of the source (email, phone) are modelled directly below instead. -/
structure JsEnv where
  regexTest : String → String → Option Bool

/-- JS `actualStr.includes(expectedStr)`. -/
def strIncludes (s t : String) : Bool :=
  (List.range (s.length + 1)).any
    (fun i => (s.toList.drop i).take t.length == t.toList)

/-- JS `actualStr.startsWith(expectedStr)`. -/
def strStartsWith (s t : String) : Bool :=
  s.toList.take t.length == t.toList

/-- JS `actualStr.endsWith(expectedStr)`. -/
def strEndsWith (s t : String) : Bool :=
  s.toList.drop (s.length - t.length) == t.toList

/-- `evaluateCondition(operator, actual, expected)` from
shared/src/utils/index.ts. `actualStr`/`expectedStr` are
`String(x ?? '')`; `actualNum`/`expectedNum` are `Number(x)` with `none`
for NaN; the ordered comparisons mirror the
`!isNaN(..) && !isNaN(..) && ..` guards; `matches_regex` wraps the regex
construction in try/catch, returning `false` when it throws. -/
def evaluateCondition (env : JsEnv) (operator : String)
    (actual expected : JsValue) : Bool :=
  let actualStr := jsCoalesceStr actual
  let expectedStr := jsCoalesceStr expected
  let actualNum := jsToNumber actual
  let expectedNum := jsToNumber expected
  match operator with
  | "equals" => jsStrictEq actual expected || actualStr == expectedStr
  | "not_equals" => !jsStrictEq actual expected && actualStr != expectedStr
  | "contains" => strIncludes actualStr expectedStr
  | "not_contains" => !strIncludes actualStr expectedStr
  | "starts_with" => strStartsWith actualStr expectedStr
  | "ends_with" => strEndsWith actualStr expectedStr
  | "greater_than" =>
    match actualNum, expectedNum with
    | some a, some b => a > b
    | _, _ => false
  | "less_than" =>
    match actualNum, expectedNum with
    | some a, some b => a < b
    | _, _ => false
  | "greater_or_equal" =>
    match actualNum, expectedNum with
    | some a, some b => a ≥ b
    | _, _ => false
  | "less_or_equal" =>
    match actualNum, expectedNum with
    | some a, some b => a ≤ b
    | _, _ => false
  | "is_empty" => isNullish actual || actualStr == ""
  | "is_not_empty" => !isNullish actual && actualStr != ""
  | "matches_regex" => (env.regexTest expectedStr actualStr).getD false
  | _ => false

/-- `validation` config of a Collect-Input node
(shared types: `InputValidation`). Numeric bounds are JS numbers. -/
structure InputValidation where
  type : String
  pattern : Option String := none
  minLength : Option ℚ := none
  maxLength : Option ℚ := none
  min : Option ℚ := none
  max : Option ℚ := none
  errorMessage : Option String := none

/-- A character of the class `[^\s@]` from the email regex literal. -/
def emailAtomChar (c : Char) : Bool :=
  !isJsSpace c && c != '@'

/-- The fixed email test `/^[^\s@]+@[^\s@]+\.[^\s@]+$/` of `validateInput`,
written out: since `[^\s@]` excludes `@`, a match is exactly a split
`local@rest` with both parts non-empty runs of `[^\s@]`, where `rest`
contains a dot that has at least one character before and after it. -/
def emailTest (s : String) : Bool :=
  match s.splitOn "@" with
  | [localPart, rest] =>
    !localPart.isEmpty && localPart.toList.all emailAtomChar &&
    rest.toList.all emailAtomChar &&
    (List.range rest.length).any
      (fun i => rest.toList.get? i == some '.' &&
        decide (1 ≤ i) && decide (i + 1 < rest.length))
  | _ => false

/-- A character of the class `[\d\s\-+()]` from the phone regex literal. -/
def phoneChar (c : Char) : Bool :=
  c.isDigit || isJsSpace c || c = '-' || c = '+' || c = '(' || c = ')'

/-- The fixed phone test `/^[\d\s\-+()]{10,}$/` of `validateInput`. -/
def phoneTest (s : String) : Bool :=
  s.toList.all phoneChar && decide (10 ≤ s.length)

/-- `validateInput(input, validation)` from runtime/src/handlers.ts.
The `text` length guards use JS truthiness (`minLength: 0` is skipped);
the `number` bound guards use explicit `!== undefined` checks; a missing
or empty `regex` pattern accepts everything; `date`/`custom` and unknown
types accept everything. -/
def validateInput (env : JsEnv) (input : String)
    (validation : Option InputValidation) : Bool :=
  match validation with
  | none => true
  | some v =>
    match v.type with
    | "text" =>
      let minFail :=
        match v.minLength with
        | some m => m != 0 && decide ((input.length : ℚ) < m)
        | none => false
      let maxFail :=
        match v.maxLength with
        | some m => m != 0 && decide ((input.length : ℚ) > m)
        | none => false
      !minFail && !maxFail
    | "number" =>
      match parseJsNumber input with
      | none => false
      | some num =>
        let minFail :=
          match v.min with
          | some m => decide (num < m)
          | none => false
        let maxFail :=
          match v.max with
          | some m => decide (num > m)
          | none => false
        !minFail && !maxFail
    | "email" => emailTest input
    | "phone" => phoneTest input
    | "regex" =>
      match v.pattern with
      | none => true
      | some p =>
        if p = "" then true
        else (env.regexTest p input).getD false
    | _ => true

/-! ### Flow data model (shared types)
Node `position`, flow `metadata`, declared `tools` and the per-variable
`type`/`persistent` flags are carried by the wire format but never read by
the runtime core; they are omitted from the embedding. -/

/-- One edge of a flow. -/
structure FlowEdge where
  id : String
  source : String
  target : String
  sourceHandle : Option String := none
  label : Option String := none

/-- One intent of an LLM-Router node. -/
structure IntentDefinition where
  name : String
  description : String
  targetNodeId : String

/-- Model configuration of an LLM-Router node; only `provider` is read by
the runtime core (the rest is passed through to the AI service). -/
structure ModelConfig where
  provider : String

/-- `retry` config of a Collect-Input node. -/
structure RetryConfig where
  maxAttempts : ℚ
  retryMessage : String

/-- Config of a Start node. `initVariables` is an optional mapping; the
absent case is modelled by the empty list (merging nothing). -/
structure StartConfig where
  welcomeMessage : Option String := none
  initVariables : Vars := []

/-- Config of a Message node. `delay` only suspends the handler before it
returns; it does not affect any session state and is omitted. -/
structure MessageConfig where
  message : String

/-- Config of a Collect-Input node. The `timeout` field is never read by
the runtime core and is omitted. -/
structure CollectInputConfig where
  prompt : Option String := none
  variableName : String
  validation : Option InputValidation := none
  retry : Option RetryConfig := none

/-- Config of an LLM-Router node. -/
structure LLMRouterConfig where
  systemPrompt : String
  intents : List IntentDefinition
  model : Option ModelConfig := none
  fallbackIntent : Option String := none
  confidenceThreshold : Option ℚ := none

/-- Config of a Knowledge-Search node. -/
structure KnowledgeSearchConfig where
  knowledgeBaseId : String
  query : String
  topK : Option ℚ := none
  minScore : Option ℚ := none
  resultVariable : String
  groundedOnly : Option Bool := none

/-- `onError` config of a Tool-Call node. -/
structure ToolOnError where
  action : String
  targetNodeId : Option String := none

/-- Config of a Tool-Call node. The `retry` field is declared in the
shared types but never read by the handler; it is omitted. -/
structure ToolCallConfig where
  toolId : String
  inputs : List (String × JsValue)
  resultVariable : String
  timeout : Option ℚ := none
  onError : Option ToolOnError := none

/-- One rule of a Condition node. -/
structure ConditionRule where
  id : String
  «variable» : String
  operator : String
  value : JsValue
  targetNodeId : String

/-- Config of a Condition node. -/
structure ConditionConfig where
  conditions : List ConditionRule
  defaultNodeId : Option String := none

/-- Config of an Escalate node. -/
structure EscalateConfig where
  reason : String
  queue : Option String := none
  priority : Option String := none
  context : List (String × String) := []
  handoffMessage : Option String := none

/-- Config of an End node. `status` ranges over
`completed | escalated | abandoned | error`. -/
structure EndConfig where
  message : Option String := none
  status : String
  summary : Option (List (String × String)) := none

/-- The tagged union of node kinds; the tag mirrors the wire `type`
discriminator. -/
inductive NodeConfig : Type where
  | start : StartConfig → NodeConfig
  | message : MessageConfig → NodeConfig
  | collect_input : CollectInputConfig → NodeConfig
  | llm_router : LLMRouterConfig → NodeConfig
  | knowledge_search : KnowledgeSearchConfig → NodeConfig
  | tool_call : ToolCallConfig → NodeConfig
  | condition : ConditionConfig → NodeConfig
  | escalate : EscalateConfig → NodeConfig
  | endNode : EndConfig → NodeConfig

/-- A flow node; `name` is display-only. -/
structure FlowNode where
  id : String
  name : String := ""
  config : NodeConfig

/-- The wire `type` string of a node. -/
def nodeTypeStr (n : FlowNode) : String :=
  match n.config with
  | .start _ => "start"
  | .message _ => "message"
  | .collect_input _ => "collect_input"
  | .llm_router _ => "llm_router"
  | .knowledge_search _ => "knowledge_search"
  | .tool_call _ => "tool_call"
  | .condition _ => "condition"
  | .escalate _ => "escalate"
  | .endNode _ => "end"

/-- A declared flow variable (only `name` and `defaultValue` are read by
the runtime). -/
structure VariableDef where
  name : String
  defaultValue : Option JsValue := none

/-- A flow definition. -/
structure FlowDefinition where
  id : String
  name : String := ""
  entryNode : String
  nodes : List FlowNode
  edges : List FlowEdge
  «variables» : List VariableDef := []

/-- `findNode(flow, nodeId)` from shared/src/utils/index.ts. -/
def findNode (flow : FlowDefinition) (nodeId : String) : Option FlowNode :=
  flow.nodes.find? (fun n => n.id == nodeId)

/-- `findConnectedEdges(flow, nodeId, direction)` from
shared/src/utils/index.ts. -/
def findConnectedEdges (flow : FlowDefinition) (nodeId : String)
    (direction : String) : List FlowEdge :=
  flow.edges.filter (fun edge =>
    if direction = "incoming" then edge.target == nodeId
    else if direction = "outgoing" then edge.source == nodeId
    else edge.source == nodeId || edge.target == nodeId)

/-- `getNextNodes(flow, nodeId)` from shared/src/utils/index.ts: targets
of the outgoing edges, silently dropping any edge whose target id does
not resolve to a node. -/
def getNextNodes (flow : FlowDefinition) (nodeId : String) : List FlowNode :=
  (findConnectedEdges flow nodeId "outgoing").filterMap
    (fun edge => findNode flow edge.target)

/-! ### Runtime types and services -/

/-- Structured error carried by a `NodeResult` or an execution step. -/
structure ExecutionError where
  code : String
  message : String := ""

/-- `NodeResult` from runtime/src/types.ts. `nextNodeId` distinguishes the
JS `undefined` (follow edge, outer `none`), `null` (wait for input,
`some none`) and a concrete id (`some (some id)`). `endFlag` embeds the
source field `end`. -/
structure NodeResult where
  output : Option JsValue := none
  message : Option String := none
  nextNodeId : Option (Option String) := none
  «variables» : Option Vars := none
  waitForInput : Bool := false
  endFlag : Bool := false
  error : Option ExecutionError := none

/-- Request passed to `AI.classify`. -/
structure ClassifyRequest where
  systemPrompt : String
  userMessage : String
  intents : List (String × String)

/-- Result of `AI.classify`. -/
structure ClassifyResult where
  intent : String
  confidence : ℚ

/-- Request passed to `Knowledge.search`. -/
structure KnowledgeRequest where
  knowledgeBaseId : String
  query : String
  topK : ℚ
  minScore : ℚ

/-- Request passed to `Tool.execute`. -/
structure ToolRequest where
  toolId : String
  inputs : List (String × JsValue)
  timeout : Option ℚ

/-- Result of `Tool.execute`. -/
structure ToolResult where
  success : Bool
  output : JsValue := .undef
  error : Option String := none

/-- The pluggable service collaborators, modelled as response functions of
the request. A `classify`/`execute` call that throws is modelled as
`Except.error` carrying the error message. -/
structure RuntimeServices where
  classify : ClassifyRequest → Except String ClassifyResult
  search : KnowledgeRequest → JsValue
  execute : ToolRequest → Except String ToolResult

/-- Property read `v[k]` on a search result object. -/
def objGet (v : JsValue) (k : String) : JsValue :=
  match v with
  | .obj fs => getVar fs k
  | _ => JsValue.undef

/-- Object spread update `\x7b ...v, k: val \x7d`; search results are
objects, so the non-object case is immaterial. -/
def objSet (v : JsValue) (k : String) (val : JsValue) : JsValue :=
  match v with
  | .obj fs => .obj (setVar fs k val)
  | _ => .obj [(k, val)]

/-- An optional string rendered as a JS object field value
(`undefined` when absent). -/
def strOptJs : Option String → JsValue
  | some s => .str s
  | none => JsValue.undef

/-! ### Node handlers (runtime/src/handlers.ts)
Each handler is a function of the node config, the session variables and
the pending input. `handleLLMRouter` can rethrow the AI error, hence the
`Except` result; every other handler returns normally. Event emission
(`session_escalated`) and the `delay` sleep are external effects without
session-state footprint and are dropped here. -/

/-- `handleStart`. (`initVariables` is merged by the engine's
`initializeVariables`, not here — exactly as in the source.) -/
def handleStart (cfg : StartConfig) (vars : Vars) : NodeResult :=
  { message :=
      if strOptTruthy cfg.welcomeMessage then
        some (interpolate (cfg.welcomeMessage.getD "") vars)
      else none,
    output := some (.obj [("started", .bool true)]) }

/-- `handleMessage`. -/
def handleMessage (cfg : MessageConfig) (vars : Vars) : NodeResult :=
  let message := interpolate cfg.message vars
  { message := some message,
    output := some (.obj [("message", .str message)]) }

/-- The retry counter read
`(session.variables[key] as number) || 0`: a stored number is used as-is
(`0` stays `0` through the falsy branch); an absent variable yields `0`.
The counter is only ever written by `handleCollectInput` itself, as a
number. -/
def jsAsNumberOr0 : JsValue → ℚ
  | .num q => q
  | _ => 0

/-- `handleCollectInput`: with input present, validate, then either run
the retry policy or store the value; with no input, prompt and wait. -/
def handleCollectInput (env : JsEnv) (cfg : CollectInputConfig)
    (vars : Vars) (input : Option String) : NodeResult :=
  match input with
  | some inp =>
    let invalid :=
      match cfg.validation with
      | some _ => !validateInput env inp cfg.validation
      | none => false
    if invalid then
      match cfg.retry with
      | some retry =>
        let attempts := jsAsNumberOr0 (getVar vars (cfg.variableName ++ "_attempts"))
        if attempts ≥ retry.maxAttempts then
          { error := some
              { code := "MAX_RETRIES_EXCEEDED",
                message := "Maximum retry attempts (" ++ ratToJsString retry.maxAttempts
                  ++ ") exceeded" } }
        else
          { message := some retry.retryMessage,
            «variables» := some [(cfg.variableName ++ "_attempts", .num (attempts + 1))],
            waitForInput := true,
            nextNodeId := some none }
      | none =>
        { message := some
            (match cfg.validation with
             | some v => if strOptTruthy v.errorMessage then v.errorMessage.getD "" else "Invalid input. Please try again."
             | none => "Invalid input. Please try again."),
          waitForInput := true,
          nextNodeId := some none }
    else
      { «variables» := some
          [(cfg.variableName, .str inp),
           (cfg.variableName ++ "_attempts", .num 0)],
        output := some (.obj [("collected", .str inp)]) }
  | none =>
    { message :=
        if strOptTruthy cfg.prompt then
          some (interpolate (cfg.prompt.getD "") vars)
        else none,
      waitForInput := true,
      nextNodeId := some none }

/-- The user-message fallback chain of `handleLLMRouter`:
`context.input || variables.user_message || variables.customer_message
|| ''` (JS truthiness at each step; non-string variables are coerced by
the model where the source merely casts). -/
def routerUserMessage (vars : Vars) (input : Option String) : String :=
  match input with
  | some s => if s ≠ "" then s else routerVarMessage vars
  | none => routerVarMessage vars
where
  routerVarMessage (vars : Vars) : String :=
    let u := getVar vars "user_message"
    if jsTruthy u then jsToString u
    else
      let c := getVar vars "customer_message"
      if jsTruthy c then jsToString c else ""

/-- The `AI.classify` request built by `handleLLMRouter`. -/
def routerRequest (cfg : LLMRouterConfig) (vars : Vars)
    (input : Option String) : ClassifyRequest :=
  { systemPrompt := cfg.systemPrompt,
    userMessage := routerUserMessage vars input,
    intents := cfg.intents.map (fun i => (i.name, i.description)) }

/-- `handleLLMRouter`. `Except.error` models the rethrow of the AI error
when neither a fallback intent nor the rules provider is configured. -/
def handleLLMRouter (services : RuntimeServices) (cfg : LLMRouterConfig)
    (vars : Vars) (input : Option String) : Except String NodeResult :=
  match services.classify (routerRequest cfg vars input) with
  | .ok result =>
    let threshold := cfg.confidenceThreshold.getD (1/2)
    if result.confidence < threshold && strOptTruthy cfg.fallbackIntent then
      let fallbackName := cfg.fallbackIntent.getD ""
      let fallbackIntentDef := cfg.intents.find? (fun i => i.name == fallbackName)
      .ok
        { output := some (.obj
            [("intent", .str fallbackName),
             ("confidence", .num result.confidence),
             ("originalIntent", .str result.intent),
             ("fellback", .bool true)]),
          «variables» := some
            [("last_intent", .str fallbackName),
             ("last_confidence", .num result.confidence)],
          nextNodeId := fallbackIntentDef.map (fun d => some d.targetNodeId) }
    else
      match cfg.intents.find? (fun i => i.name == result.intent) with
      | some matchedIntent =>
        .ok
          { output := some (.obj
              [("intent", .str result.intent),
               ("confidence", .num result.confidence)]),
            «variables» := some
              [("last_intent", .str result.intent),
               ("last_confidence", .num result.confidence)],
            nextNodeId := some (some matchedIntent.targetNodeId) }
      | none =>
        if strOptTruthy cfg.fallbackIntent then
          let fallbackName := cfg.fallbackIntent.getD ""
          let fallbackIntentDef := cfg.intents.find? (fun i => i.name == fallbackName)
          .ok
            { output := some (.obj
                [("intent", .str fallbackName),
                 ("confidence", .num 0),
                 ("fellback", .bool true)]),
              «variables» := some
                [("last_intent", .str fallbackName),
                 ("last_confidence", .num 0)],
              nextNodeId := fallbackIntentDef.map (fun d => some d.targetNodeId) }
        else
          .ok
            { error := some
                { code := "INTENT_NOT_FOUND",
                  message := "Intent \"" ++ result.intent
                    ++ "\" not found in configured intents" } }
  | .error e =>
    let providerRules :=
      match cfg.model with
      | some m => m.provider == "rules"
      | none => false
    if providerRules || strOptTruthy cfg.fallbackIntent then
      let fallbackIntentDef : Option IntentDefinition :=
        match cfg.fallbackIntent with
        | some f => cfg.intents.find? (fun i => i.name == f)
        | none => none
      let intentName :=
        if strOptTruthy cfg.fallbackIntent then cfg.fallbackIntent.getD ""
        else "fallback"
      .ok
        { output := some (.obj
            [("intent", .str intentName),
             ("confidence", .num 0),
             ("error", .bool true)]),
          «variables» := some [("last_intent", .str intentName)],
          nextNodeId := fallbackIntentDef.map (fun d => some d.targetNodeId) }
    else
      .error e

/-- `handleKnowledgeSearch`. -/
def handleKnowledgeSearch (services : RuntimeServices)
    (cfg : KnowledgeSearchConfig) (vars : Vars) : NodeResult :=
  let query := interpolate cfg.query vars
  let result := services.search
    { knowledgeBaseId := cfg.knowledgeBaseId,
      query := query,
      topK := cfg.topK.getD 3,
      minScore := cfg.minScore.getD (1/2) }
  let groundedOnly :=
    match cfg.groundedOnly with
    | some b => b
    | none => false
  if groundedOnly && !jsTruthy (objGet result "grounded") then
    { output := some (objSet result "grounded" (.bool false)),
      «variables» := some
        [(cfg.resultVariable, .obj
          [("answer", .str ""),
           ("sources", .arr []),
           ("confidence", .num 0),
           ("grounded", .bool false)])] }
  else
    { output := some result,
      «variables» := some [(cfg.resultVariable, result)] }

/-- `handleToolCall`. The service call sits in a try/catch: `Except.error`
from `execute` is the thrown case. -/
def handleToolCall (services : RuntimeServices) (cfg : ToolCallConfig)
    (vars : Vars) : NodeResult :=
  let processedInputs := cfg.inputs.map (fun p =>
    match p.2 with
    | .str s => (p.1, JsValue.str (interpolate s vars))
    | v => (p.1, v))
  match services.execute
    { toolId := cfg.toolId, inputs := processedInputs, timeout := cfg.timeout } with
  | .ok result =>
    if !result.success then
      let failed : NodeResult :=
        { error := some
            { code := "TOOL_CALL_FAILED",
              message :=
                match result.error with
                | some e => if e ≠ "" then e else "Tool call failed"
                | none => "Tool call failed" } }
      match cfg.onError with
      | some onErr =>
        if onErr.action = "continue" then
          { output := some (.obj
              [("error", strOptJs result.error), ("success", .bool false)]),
            «variables» := some
              [(cfg.resultVariable, .obj
                [("error", strOptJs result.error), ("success", .bool false)])] }
        else if onErr.action = "goto" then
          { output := some (.obj [("error", strOptJs result.error)]),
            nextNodeId := onErr.targetNodeId.map some }
        else if onErr.action = "escalate" then
          { output := some (.obj [("error", strOptJs result.error)]) }
        else failed
      | none => failed
    else
      { output := some result.output,
        «variables» := some [(cfg.resultVariable, result.output)] }
  | .error errorMessage =>
    let isContinue :=
      match cfg.onError with
      | some onErr => onErr.action == "continue"
      | none => false
    if isContinue then
      { output := some (.obj
          [("error", .str errorMessage), ("success", .bool false)]),
        «variables» := some
          [(cfg.resultVariable, .obj
            [("error", .str errorMessage), ("success", .bool false)])] }
    else
      { error := some { code := "TOOL_CALL_ERROR", message := errorMessage } }

/-- `getNestedValue(obj, path)` from runtime/src/handlers.ts: dotted-path
walk, nullish intermediates yield `undefined`. Array elements resolve by
numeric path part; JS string indexing and built-in properties are outside
the values flows store and resolve to `undefined` here. -/
def getNestedValue (vars : Vars) (path : String) : JsValue :=
  (path.splitOn ".").foldl
    (fun cur part =>
      match cur with
      | .undef => .undef
      | .null => .undef
      | .obj fs => getVar fs part
      | .arr xs =>
        match part.toNat? with
        | some i => (xs.get? i).getD .undef
        | none => .undef
      | _ => .undef)
    (.obj vars)

/-- First matching rule of a Condition node, with the resolved value. -/
def firstMatchingRule (env : JsEnv) (vars : Vars) :
    List ConditionRule → Option (ConditionRule × JsValue)
  | [] => none
  | c :: rest =>
    let value := getNestedValue vars c.«variable»
    if evaluateCondition env c.operator value c.value then some (c, value)
    else firstMatchingRule env vars rest

/-- `handleCondition`. -/
def handleCondition (env : JsEnv) (cfg : ConditionConfig) (vars : Vars) :
    NodeResult :=
  match firstMatchingRule env vars cfg.conditions with
  | some (c, value) =>
    { output := some (.obj
        [("matchedCondition", .str c.id),
         ("variable", .str c.«variable»),
         ("value", value)]),
      nextNodeId := some (some c.targetNodeId) }
  | none =>
    { output := some (.obj
        [("matchedCondition", .null), ("default", .bool true)]),
      nextNodeId := cfg.defaultNodeId.map some }

/-- `handleEscalate`. The `session_escalated` event emission is an
observer effect with no session-state footprint. -/
def handleEscalate (cfg : EscalateConfig) (vars : Vars) : NodeResult :=
  { message :=
      if strOptTruthy cfg.handoffMessage then
        some (interpolate (cfg.handoffMessage.getD "") vars)
      else none,
    output := some (.obj
      [("escalated", .bool true),
       ("reason", .str cfg.reason),
       ("queue", strOptJs cfg.queue),
       ("priority", strOptJs cfg.priority),
       ("context", .obj (cfg.context.map (fun p => (p.1, JsValue.str p.2))))]),
    endFlag := true }

/-- `handleEnd`. -/
def handleEnd (cfg : EndConfig) (vars : Vars) : NodeResult :=
  { message :=
      if strOptTruthy cfg.message then
        some (interpolate (cfg.message.getD "") vars)
      else none,
    output := some (.obj
      [("status", .str cfg.status),
       ("summary",
        match cfg.summary with
        | some l => .obj (l.map (fun p => (p.1, JsValue.str p.2)))
        | none => .undef)]),
    endFlag := true }

/-- `NodeExecutor.execute` from runtime/src/executor.ts: dispatch on the
node kind; any exception raised by a handler is converted into an
`EXECUTION_ERROR` result. (The modelled node type is a closed union, so
the `UNKNOWN_NODE_TYPE` branch is unreachable here.) -/
def executeNode (env : JsEnv) (services : RuntimeServices) (node : FlowNode)
    (vars : Vars) (input : Option String) : NodeResult :=
  let dispatched : Except String NodeResult :=
    match node.config with
    | .start c => .ok (handleStart c vars)
    | .message c => .ok (handleMessage c vars)
    | .collect_input c => .ok (handleCollectInput env c vars input)
    | .llm_router c => handleLLMRouter services c vars input
    | .knowledge_search c => .ok (handleKnowledgeSearch services c vars)
    | .tool_call c => .ok (handleToolCall services c vars)
    | .condition c => .ok (handleCondition env c vars)
    | .escalate c => .ok (handleEscalate c vars)
    | .endNode c => .ok (handleEnd c vars)
  match dispatched with
  | .ok r => r
  | .error msg => { error := some { code := "EXECUTION_ERROR", message := msg } }

/-! ### Engine (runtime/src/engine.ts)
`stepId`, `timestamp` and `duration` on steps, and `createdAt`/`updatedAt`
on sessions, come from the wall clock and random id generation; they carry
no control-flow information and are omitted. `cloneSession` exists for JS
aliasing and is the identity in this pure model. -/

/-- Session lifecycle status. -/
inductive SessionStatus : Type where
  | active : SessionStatus
  | waiting_input : SessionStatus
  | completed : SessionStatus
  | escalated : SessionStatus
  | error : SessionStatus
  | timeout : SessionStatus
deriving DecidableEq

/-- One step of a session's execution history. -/
structure ExecutionStep where
  nodeId : String
  nodeType : String
  input : Option String := none
  output : Option JsValue := none
  error : Option ExecutionError := none

/-- The mutable state of one session. -/
structure SessionState where
  id : String
  flowId : String
  currentNodeId : String
  «variables» : Vars
  history : List ExecutionStep
  status : SessionStatus

/-- The session store contract (`get`/`set` keyed by session id); the
in-memory `SessionManager` is a mapping from id to session. -/
abbrev SessionStore := List (String × SessionState)

/-- `sessions.get(id)`. -/
def storeGet (store : SessionStore) (id : String) : Option SessionState :=
  (store.find? (fun p => p.1 == id)).map (fun p => p.2)

/-- `sessions.set(session)`: full replacement keyed by `session.id`. -/
def storeSet (store : SessionStore) (s : SessionState) : SessionStore :=
  if store.any (fun p => p.1 == s.id) then
    store.map (fun p => if p.1 == s.id then (s.id, s) else p)
  else store ++ [(s.id, s)]

/-- `FlowEngine.initializeVariables`: declared defaults first, then the
Start node's `initVariables` merged on top. -/
def initializeVariables (flow : FlowDefinition) : Vars :=
  let vars := flow.«variables».foldl
    (fun acc vd =>
      match vd.defaultValue with
      | some v => setVar acc vd.name v
      | none => acc)
    []
  match findNode flow flow.entryNode with
  | some node =>
    match node.config with
    | .start c => assignVars vars c.initVariables
    | _ => vars
  | none => vars

/-- Outcome of one iteration of the `executeFlow` while-loop: either the
loop breaks with a final session, or execution continues at a new current
node (with the one-shot input cleared). -/
inductive StepOutcome : Type where
  | halt : SessionState → StepOutcome
  | next : SessionState → StepOutcome

/-- The side-effects the loop applies after a handler returns: append the
execution step to the history, then apply the `variables` patch (if
present) as a shallow `Object.assign`. -/
def applyResult (session : SessionState) (node : FlowNode)
    (input : Option String) (result : NodeResult) : SessionState :=
  let step : ExecutionStep :=
    { nodeId := node.id,
      nodeType := nodeTypeStr node,
      input := input,
      output := result.output,
      error := result.error }
  let s1 := { session with history := session.history ++ [step] }
  match result.«variables» with
  | some patch => { s1 with «variables» := assignVars s1.«variables» patch }
  | none => s1

/-- One iteration of the `executeFlow` while-loop body (engine.ts):
look up the current node (missing ⇒ error, no step recorded), run the
executor, record the step and variable patch, then branch on `error`,
`waitForInput`, `end`, and the next-node choice. When the handler returns
no `nextNodeId`, the first entry of `getNextNodes` is used, and an empty
list completes the session. -/
def runLoopIter (env : JsEnv) (services : RuntimeServices)
    (flow : FlowDefinition) (session : SessionState) (input : Option String) :
    StepOutcome :=
  match findNode flow session.currentNodeId with
  | none => .halt { session with status := .error }
  | some node =>
    let result := executeNode env services node session.«variables» input
    let s2 := applyResult session node input result
    if result.error.isSome then .halt { s2 with status := .error }
    else if result.waitForInput then .halt { s2 with status := .waiting_input }
    else if result.endFlag then .halt { s2 with status := .completed }
    else
      match result.nextNodeId with
      | some (some id) => .next { s2 with currentNodeId := id }
      | some none => .halt { s2 with status := .waiting_input }
      | none =>
        match getNextNodes flow node.id with
        | [] => .halt { s2 with status := .completed }
        | n :: _ => .next { s2 with currentNodeId := n.id }

/-- The `while (steps < maxSteps)` loop of `executeFlow`. The fuel is
`maxSteps` minus the steps already taken; the returned `Nat` is the fuel
remaining on exit, so the source's post-loop test `steps >= maxSteps` is
exactly `fuel remaining = 0`. The one-shot input is cleared after the
first iteration. -/
def runLoop (env : JsEnv) (services : RuntimeServices)
    (flow : FlowDefinition) :
    Nat → SessionState → Option String → SessionState × Nat
  | 0, s, _ => (s, 0)
  | fuel + 1, s, input =>
    match runLoopIter env services flow s input with
    | .halt s2 => (s2, fuel)
    | .next s2 => runLoop env services flow fuel s2 none

/-- Engine configuration (`EngineConfig`); `DEFAULT_MAX_STEPS = 100`. -/
structure EngineConfig where
  maxSteps : Nat := 100

/-- `FlowEngine.executeFlow`: run the loop from the session's current
node, then apply the source's post-loop step-bound check, which forces
`status = error` whenever all `maxSteps` steps were consumed — even when
the final iteration broke cleanly. (The final `sessions.set` is performed
by the callers below.) -/
def executeFlow (env : JsEnv) (services : RuntimeServices)
    (cfg : EngineConfig) (flow : FlowDefinition) (session : SessionState)
    (input : Option String) : SessionState :=
  let r := runLoop env services flow cfg.maxSteps session input
  if r.2 = 0 then { r.1 with status := .error } else r.1

/-- The errors thrown across the public engine surface. The source throws
`Error` objects whose messages correspond to the spec codes
`ENTRY_NOT_FOUND`, `SESSION_NOT_FOUND` and `SESSION_NOT_WAITING`. -/
inductive EngineError : Type where
  | entryNotFound : EngineError
  | sessionNotFound : EngineError
  | sessionNotWaiting : EngineError
deriving DecidableEq

/-- `FlowEngine.startSession`: verify the entry node, create and store the
fresh session (`status = active`, variables initialised), then drive the
run loop and store the result. The fresh session id comes from
`generateId` (clock + randomness) and is passed in as `newSessionId`.
Returns the thrown error or the final session, together with the session
store as left behind. -/
def startSession (env : JsEnv) (services : RuntimeServices)
    (cfg : EngineConfig) (flow : FlowDefinition) (store : SessionStore)
    (newSessionId : String) :
    Except EngineError SessionState × SessionStore :=
  match findNode flow flow.entryNode with
  | none => (.error .entryNotFound, store)
  | some _ =>
    let session : SessionState :=
      { id := newSessionId,
        flowId := flow.id,
        currentNodeId := flow.entryNode,
        «variables» := initializeVariables flow,
        history := [],
        status := .active }
    let store1 := storeSet store session
    let final := executeFlow env services cfg flow session none
    (.ok final, storeSet store1 final)

/-- `FlowEngine.processInput`: load the session (missing ⇒ throw), reject
unless `status = waiting_input` (throw, store untouched), else set the
status to active and drive the run loop with the input, storing the
result. -/
def processInput (env : JsEnv) (services : RuntimeServices)
    (cfg : EngineConfig) (flow : FlowDefinition) (store : SessionStore)
    (sessionId : String) (input : String) :
    Except EngineError SessionState × SessionStore :=
  match storeGet store sessionId with
  | none => (.error .sessionNotFound, store)
  | some session =>
    if session.status ≠ .waiting_input then (.error .sessionNotWaiting, store)
    else
      let updated := { session with status := .active }
      let final := executeFlow env services cfg flow updated (some input)
      (.ok final, storeSet store final)

/-- Feed a list of user inputs to a session one `processInput` call at a
time, propagating the store between calls and stopping at the first
thrown error. Used to state multi-turn properties. -/
def feedInputs (env : JsEnv) (services : RuntimeServices)
    (cfg : EngineConfig) (flow : FlowDefinition) (sessionId : String) :
    SessionStore → List String → Except EngineError (SessionState × SessionStore)
  | store, [] =>
    match storeGet store sessionId with
    | some s => .ok (s, store)
    | none => .error .sessionNotFound
  | store, i :: rest =>
    match processInput env services cfg flow store sessionId i with
    | (.ok _, store2) => feedInputs env services cfg flow sessionId store2 rest
    | (.error e, _) => .error e

/-! ### Helper lemmas about the association-list operations -/

lemma find?_overwrite_self {β : Type} (l : List (String × β)) (k : String) (v : β) :
    (if l.any (fun p => p.1 == k) then
        l.map (fun p => if p.1 == k then (k, v) else p)
      else l ++ [(k, v)]).find? (fun p => p.1 == k) = some (k, v) := by
  split
  · next hany =>
    induction l with
    | nil => simp at hany
    | cons p rest ih =>
      by_cases hp : (p.1 == k) = true
      · rw [List.map_cons, if_pos hp]
        exact @List.find?_cons_of_pos _ (fun q => q.1 == k) (k, v) _ (by simp)
      · have hany2 : rest.any (fun q => q.1 == k) = true := by
          simpa [hp] using hany
        rw [List.map_cons, if_neg hp,
          @List.find?_cons_of_neg _ (fun q => q.1 == k) p _ hp]
        exact ih hany2
  · next hany =>
    have hnone : l.find? (fun p => p.1 == k) = none := by
      rw [List.find?_eq_none]
      intro x hx hcontra
      apply hany
      rw [List.any_eq_true]
      exact ⟨x, hx, hcontra⟩
    rw [List.find?_append, hnone]
    simp

lemma find?_map_overwrite {β : Type} (l : List (String × β)) (k k2 : String)
    (v : β) (hne : k2 ≠ k) :
    (l.map (fun p => if p.1 == k then (k, v) else p)).find?
        (fun p => p.1 == k2)
      = l.find? (fun p => p.1 == k2) := by
  have hkk2 : (k == k2) = false := by
    simp only [beq_eq_false_iff_ne, ne_eq]
    exact fun hc => hne hc.symm
  induction l with
  | nil => simp
  | cons p rest ih =>
    by_cases hp : (p.1 == k) = true
    · have hp3 : (p.1 == k2) = false := by
        simp only [beq_iff_eq] at hp
        rw [hp]
        exact hkk2
      rw [List.map_cons, if_pos hp,
        @List.find?_cons_of_neg _ (fun q => q.1 == k2) (k, v) _ (by simp [hkk2]),
        @List.find?_cons_of_neg _ (fun q => q.1 == k2) p _ (by simp [hp3]),
        ih]
    · rw [List.map_cons, if_neg hp]
      by_cases hp2 : (p.1 == k2) = true
      · rw [@List.find?_cons_of_pos _ (fun q => q.1 == k2) p _ hp2,
          @List.find?_cons_of_pos _ (fun q => q.1 == k2) p _ hp2]
      · rw [@List.find?_cons_of_neg _ (fun q => q.1 == k2) p _ hp2,
          @List.find?_cons_of_neg _ (fun q => q.1 == k2) p _ hp2, ih]

lemma find?_overwrite_ne {β : Type} (l : List (String × β)) (k k2 : String)
    (v : β) (hne : k2 ≠ k) :
    (if l.any (fun p => p.1 == k) then
        l.map (fun p => if p.1 == k then (k, v) else p)
      else l ++ [(k, v)]).find? (fun p => p.1 == k2)
      = l.find? (fun p => p.1 == k2) := by
  have hkk2 : (k == k2) = false := by
    simp only [beq_eq_false_iff_ne, ne_eq]
    exact fun hc => hne hc.symm
  split
  · exact find?_map_overwrite l k k2 v hne
  · rw [List.find?_append]
    have h1 : List.find? (fun p => p.1 == k2) [(k, v)] = none := by
      simp [hkk2]
    rw [h1]
    cases l.find? (fun p => p.1 == k2) <;> simp

lemma getVar_setVar_self (vars : Vars) (k : String) (v : JsValue) :
    getVar (setVar vars k v) k = v := by
  unfold getVar setVar
  rw [find?_overwrite_self]

lemma getVar_setVar_ne (vars : Vars) (k k2 : String) (v : JsValue)
    (hne : k2 ≠ k) : getVar (setVar vars k v) k2 = getVar vars k2 := by
  unfold getVar setVar
  rw [find?_overwrite_ne _ _ _ _ hne]

lemma getVar_assign_single (vars : Vars) (k : String) (v : JsValue) :
    getVar (assignVars vars [(k, v)]) k = v := by
  unfold assignVars
  simp only [List.foldl_cons, List.foldl_nil]
  exact getVar_setVar_self vars k v

lemma storeGet_storeSet_self (store : SessionStore) (s : SessionState) :
    storeGet (storeSet store s) s.id = some s := by
  unfold storeGet storeSet
  rw [find?_overwrite_self]
  rfl

/-! ### Shared concrete fixtures used by counterexamples and witnesses -/

/-- A regex environment whose dynamic-pattern compilation always throws
(no claim below exercises dynamic patterns in engine runs). -/
def noopEnv : JsEnv := ⟨fun _ _ => none⟩

/-- Services whose AI and tool calls fail and whose knowledge search
returns an empty object; the demo flows below never reach them. -/
def noopServices : RuntimeServices :=
  ⟨fun _ => .error "service unavailable", fun _ => .obj [],
   fun _ => .error "service unavailable"⟩

/-! ## Claims -/

/-- C8: `evaluateCondition` is a total function of operator, actual and
expected value (it is a Lean function, hence never raises, for every
regex environment including one whose compilation always throws), and:
equality falls back to string equality when strict equality fails; the
four ordered comparisons only match when both sides convert to numbers
(not NaN); `is_empty` matches exactly the absent value, null, or a value
with empty string form; and `matches_regex` whose pattern fails to
compile returns false. -/
theorem c8_evaluateCondition_clauses (env : JsEnv) (actual expected : JsValue) :
    (evaluateCondition env "equals" actual expected
      = (jsStrictEq actual expected
          || jsCoalesceStr actual == jsCoalesceStr expected))
    ∧ (∀ op : String,
        (op = "greater_than" ∨ op = "less_than" ∨
         op = "greater_or_equal" ∨ op = "less_or_equal") →
        evaluateCondition env op actual expected = true →
        (jsToNumber actual).isSome ∧ (jsToNumber expected).isSome)
    ∧ (evaluateCondition env "is_empty" actual expected = true ↔
        (actual = .undef ∨ actual = .null ∨ jsCoalesceStr actual = ""))
    ∧ (env.regexTest (jsCoalesceStr expected) (jsCoalesceStr actual) = none →
        evaluateCondition env "matches_regex" actual expected = false) := by
  refine ⟨rfl, ?_, ?_, ?_⟩
  · rintro op (rfl | rfl | rfl | rfl) h <;>
      (simp only [evaluateCondition] at h
       cases h1 : jsToNumber actual <;> cases h2 : jsToNumber expected <;>
         simp [h1, h2] at h ⊢)
  · simp only [evaluateCondition, Bool.or_eq_true, beq_iff_eq]
    cases actual <;> simp [isNullish]
  · intro h
    simp only [evaluateCondition, h, Option.getD_none]

/-- C8 witness: the clauses applied at concrete inputs — a failing regex
compilation yields `false`, and a matching ordered comparison implies
both sides are numbers. -/
theorem c8_evaluateCondition_clauses_witness :
    evaluateCondition ⟨fun _ _ => none⟩ "matches_regex"
        (.str "x") (.str "[") = false
    ∧ ((jsToNumber (JsValue.num 7)).isSome
        ∧ (jsToNumber (JsValue.num 5)).isSome) := by
  constructor
  · exact (c8_evaluateCondition_clauses ⟨fun _ _ => none⟩
      (.str "x") (.str "[")).2.2.2 rfl
  · exact (c8_evaluateCondition_clauses ⟨fun _ _ => none⟩
      (.num 7) (.num 5)).2.1 "greater_than" (Or.inl rfl) (by decide)

/-- C10: for a Collect-Input node validating type `number` with `min`
unset or ≤ 0 and `max` unset or ≥ 0, the empty-string input passes
validation — JS `Number('')` is `0`, not NaN — so the handler stores the
empty string into `variables[variableName]`, resets the attempt counter,
and returns neither `waitForInput` nor an explicit `nextNodeId`, which
makes the engine continue past the node instead of re-prompting. -/
theorem c10_empty_string_passes_number_validation (env : JsEnv)
    (v : InputValidation) (cfg : CollectInputConfig) (vars : Vars)
    (htype : v.type = "number")
    (hmin : ∀ m, v.min = some m → m ≤ 0)
    (hmax : ∀ m, v.max = some m → 0 ≤ m)
    (hval : cfg.validation = some v) :
    parseJsNumber "" = some 0
    ∧ validateInput env "" (some v) = true
    ∧ handleCollectInput env cfg vars (some "") =
        { «variables» := some
            [(cfg.variableName, .str ""),
             (cfg.variableName ++ "_attempts", .num 0)],
          output := some (.obj [("collected", .str "")]) } := by
  have hparse : parseJsNumber "" = some 0 := rfl
  have hvalid : validateInput env "" (some v) = true := by
    obtain ⟨ty, pat, minL, maxL, mn, mx, em⟩ := v
    simp only at htype hmin hmax
    subst htype
    simp only [validateInput, hparse]
    cases hm : mn with
    | none =>
      cases hx : mx with
      | none => simp
      | some m =>
        have := hmax m hx
        simp only [Bool.not_eq_true]
        simp [show ¬((0 : ℚ) > m) by linarith]
    | some m =>
      have h1 := hmin m hm
      cases hx : mx with
      | none => simp [show ¬((0 : ℚ) < m) by linarith]
      | some m2 =>
        have h2 := hmax m2 hx
        simp [show ¬((0 : ℚ) < m) by linarith,
          show ¬((0 : ℚ) > m2) by linarith]
  refine ⟨hparse, hvalid, ?_⟩
  simp only [handleCollectInput, hval, hvalid, Bool.not_true, Bool.false_eq_true,
    if_false]

lemma interpolateFuel_eq_render (vars : Vars) (cs : List Char) :
    ∀ fuel : Nat, cs.length ≤ fuel →
    interpolateFuel vars fuel cs =
      ((tokenizeTemplate cs).map (renderSeg vars)).flatten := by
  induction cs using tokenizeTemplate.induct with
  | case1 =>
    intro fuel hf
    cases fuel <;> simp [interpolateFuel, tokenizeTemplate]
  | case2 rest name rest2 h ih =>
    intro fuel hf
    have hlt := matchToken_length h
    simp only [List.length_cons] at hf
    obtain ⟨n, rfl⟩ : ∃ n, fuel = n + 1 := by
      cases fuel with
      | zero => omega
      | succ n => exact ⟨n, rfl⟩
    rw [tokenizeTemplate, h]
    simp only [interpolateFuel, h]
    have ih2 := ih n (by omega)
    cases hv : getVar vars name with
    | undef => simp [renderSeg, isNullish, hv, ih2]
    | null => simp [renderSeg, isNullish, hv, ih2]
    | bool b => simp [renderSeg, isNullish, hv, ih2]
    | num q => simp [renderSeg, isNullish, hv, ih2]
    | str s => simp [renderSeg, isNullish, hv, ih2]
    | arr xs => simp [renderSeg, isNullish, hv, ih2]
    | obj fs => simp [renderSeg, isNullish, hv, ih2]
  | case3 rest h ih =>
    intro fuel hf
    simp only [List.length_cons] at hf
    obtain ⟨n, rfl⟩ : ∃ n, fuel = n + 1 := by
      cases fuel with
      | zero => omega
      | succ n => exact ⟨n, rfl⟩
    rw [tokenizeTemplate, h]
    simp only [interpolateFuel, h]
    simp [renderSeg, ih n (by simp; omega)]
  | case4 c rest hne ih =>
    intro fuel hf
    simp only [List.length_cons] at hf
    obtain ⟨n, rfl⟩ : ∃ n, fuel = n + 1 := by
      cases fuel with
      | zero => omega
      | succ n => exact ⟨n, rfl⟩
    rw [tokenizeTemplate]
    · rw [show interpolateFuel vars (n + 1) (c :: rest)
          = c :: interpolateFuel vars n rest from ?_]
      · simp [renderSeg, ih n (by omega)]
      · rw [interpolateFuel]
        exact hne
    · exact hne

/-- C9: `interpolate(template, vars)` coincides, for every template and
variable mapping, with the specification-side reading: decompose the
template into literal characters and `\x7b\x7b name \x7d\x7d` tokens
(`tokenizeTemplate`), replace each token whose variable is present and
non-null by the string form of the variable, keep each token whose
variable is absent or null textually intact, and leave all text outside
tokens unchanged (`renderSeg`). -/
theorem c9_interpolate_eq_spec (template : String) (vars : Vars) :
    interpolate template vars = interpolateSpec template vars :=
  congrArg String.mk
    (interpolateFuel_eq_render vars template.toList template.toList.length
      le_rfl)

/-- C6: calling `processInput` on a stored session whose status is not
`waiting_input` throws the session-not-waiting error and leaves the
session store — and hence the stored session, its history, variables and
status — completely unchanged. -/
theorem c6_processInput_rejects_not_waiting (env : JsEnv)
    (services : RuntimeServices) (cfg : EngineConfig) (flow : FlowDefinition)
    (store : SessionStore) (sessionId input : String) (s : SessionState)
    (hget : storeGet store sessionId = some s)
    (hstatus : s.status ≠ .waiting_input) :
    processInput env services cfg flow store sessionId input
      = (.error .sessionNotWaiting, store) := by
  unfold processInput
  rw [hget]
  simp [hstatus]

/-- A one-node flow used by the C6 witness. -/
def c6WitnessFlow : FlowDefinition :=
  { id := "f", entryNode := "s1",
    nodes := [⟨"s1", "Start", .start {}⟩], edges := [] }

/-- A completed session used by the C6 witness. -/
def c6WitnessSession : SessionState :=
  { id := "sess", flowId := "f", currentNodeId := "s1",
    «variables» := [], history := [], status := .completed }

/-- C6 witness: a freshly completed session (terminal flow) rejects
further input and the store is untouched. -/
theorem c6_processInput_rejects_not_waiting_witness :
    processInput noopEnv noopServices {} c6WitnessFlow
      [("sess", c6WitnessSession)] "sess" "hello"
      = (.error .sessionNotWaiting, [("sess", c6WitnessSession)]) := by
  exact c6_processInput_rejects_not_waiting noopEnv noopServices {} _ _ _ _ _
    rfl (by decide)

/-- Demo flow for C1: Start, then an Escalate node
(`reason = "human please"`). -/
def escalateDemoFlow : FlowDefinition :=
  { id := "f-esc", entryNode := "s1",
    nodes :=
      [⟨"s1", "Start", .start { welcomeMessage := some "Hi" }⟩,
       ⟨"e1", "Escalate", .escalate
         { reason := "human please", handoffMessage := some "Connecting…" }⟩],
    edges := [⟨"ed1", "s1", "e1", none, none⟩] }

/-- Demo flow for C1: Start, then an End node with
`config.status = "abandoned"`. -/
def abandonDemoFlow : FlowDefinition :=
  { id := "f-aband", entryNode := "s1",
    nodes :=
      [⟨"s1", "Start", .start {}⟩,
       ⟨"e1", "End", .endNode { status := "abandoned" }⟩],
    edges := [⟨"ed1", "s1", "e1", none, none⟩] }

/-- C1: evaluation of the engine at the failing inputs. The claim (and
the spec) say the engine derives the terminal status from the node —
`escalated` for an Escalate node, `config.status` for an End node — but
`executeFlow` hard-codes `status = 'completed'` whenever a handler
returns `end: true`: a session ending at the Escalate node above
finishes `completed`, not `escalated`, and a session ending at an End
node with `config.status = "abandoned"` also finishes `completed`. The
node statuses survive only in the step output and events. -/
theorem c1_terminal_status_hardcoded_completed :
    ((startSession noopEnv noopServices {} escalateDemoFlow [] "sess1").1.map
        SessionState.status = .ok .completed)
    ∧ ((startSession noopEnv noopServices {} abandonDemoFlow [] "sess2").1.map
        SessionState.status = .ok .completed)
    ∧ SessionStatus.completed ≠ SessionStatus.escalated := by
  exact ⟨rfl, rfl, by decide⟩

/-- Demo flow for C7: the Start node's only outgoing edge dangles (its
target `ghost` is not a node of the flow). -/
def danglingEdgeFlow : FlowDefinition :=
  { id := "f-dangle", entryNode := "s1",
    nodes := [⟨"s1", "Start", .start {}⟩],
    edges := [⟨"ed1", "s1", "ghost", none, none⟩] }

/-- C7 counterexample: a dangling edge is not fatal. Running the flow
whose only edge dangles completes the session (`status = completed`);
the claim's `status = error` does not happen — `getNextNodes` silently
filters out edges whose target does not resolve, and an empty result
means clean completion. -/
theorem c7_counterexample_dangling_edge_completes :
    ((startSession noopEnv noopServices {} danglingEdgeFlow [] "sess").1.map
        SessionState.status = .ok .completed)
    ∧ SessionStatus.completed ≠ SessionStatus.error := by
  exact ⟨rfl, by decide⟩

/-- C7 amended: how runtime-surfaced authoring errors actually behave.
(a) A bad entry node aborts `startSession` with the entry-not-found
error before any session exists (nothing transitions to `error`).
(b) A current node id that references no node — e.g. a missing intent
target reached through an explicit `nextNodeId` — is fatal: the session
transitions to `status = error`.
(c) A dangling edge is not fatal: `getNextNodes` silently drops every
edge whose target does not resolve, so a node whose handler just
continues and all of whose outgoing edges dangle completes the session
with `status = completed`. -/
theorem c7_amended_authoring_errors (env : JsEnv)
    (services : RuntimeServices) (cfg : EngineConfig) (flow : FlowDefinition) :
    (∀ store newId, findNode flow flow.entryNode = none →
      startSession env services cfg flow store newId
        = (.error .entryNotFound, store))
    ∧ (∀ s input, findNode flow s.currentNodeId = none →
        (executeFlow env services cfg flow s input).status = .error)
    ∧ (∀ s input node,
        findNode flow s.currentNodeId = some node →
        (∀ e ∈ flow.edges, e.source = node.id → findNode flow e.target = none) →
        (executeNode env services node s.«variables» input).error = none →
        (executeNode env services node s.«variables» input).waitForInput = false →
        (executeNode env services node s.«variables» input).endFlag = false →
        (executeNode env services node s.«variables» input).nextNodeId = none →
        runLoopIter env services flow s input
          = .halt { applyResult s node input
              (executeNode env services node s.«variables» input) with
              status := .completed }) := by
  refine ⟨?_, ?_, ?_⟩
  · intro store newId h
    unfold startSession
    rw [h]
  · intro s input h
    unfold executeFlow
    cases hms : cfg.maxSteps with
    | zero => simp [runLoop]
    | succ fuel =>
      have hiter : runLoopIter env services flow s input
          = .halt { s with status := .error } := by
        unfold runLoopIter
        rw [h]
      simp only [runLoop, hiter]
      split <;> rfl
  · intro s input node hfind hdangle h1 h2 h3 h4
    have hempty : getNextNodes flow node.id = [] := by
      unfold getNextNodes findConnectedEdges
      rw [List.filterMap_eq_nil_iff]
      intro e he
      rw [List.mem_filter] at he
      obtain ⟨hmem, hsrc⟩ := he
      simp at hsrc
      exact hdangle e hmem hsrc
    unfold runLoopIter
    rw [hfind]
    simp only [h1, h2, h3, h4, hempty, Option.isSome_none, Bool.false_eq_true,
      if_false]

/-- C7 amended witness: the three conjuncts applied to concrete flows —
a flow whose entry id is missing, a session pointing at a missing node,
and the dangling-edge flow's start node. -/
theorem c7_amended_authoring_errors_witness :
    (startSession noopEnv noopServices {}
        { id := "f", entryNode := "nope", nodes := [], edges := [] } [] "s"
      = (.error .entryNotFound, []))
    ∧ ((executeFlow noopEnv noopServices {}
        { id := "f", entryNode := "nope", nodes := [], edges := [] }
        { id := "s", flowId := "f", currentNodeId := "nope",
          «variables» := [], history := [], status := .active } none).status
        = .error)
    ∧ (runLoopIter noopEnv noopServices danglingEdgeFlow
        { id := "s", flowId := "f-dangle", currentNodeId := "s1",
          «variables» := [], history := [], status := .active } none
        = .halt { applyResult
            { id := "s", flowId := "f-dangle", currentNodeId := "s1",
              «variables» := [], history := [], status := .active }
            ⟨"s1", "Start", .start {}⟩ none
            (executeNode noopEnv noopServices ⟨"s1", "Start", .start {}⟩ [] none)
            with status := .completed }) := by
  refine ⟨?_, ?_, ?_⟩
  · exact (c7_amended_authoring_errors noopEnv noopServices {} _).1 [] "s" rfl
  · exact (c7_amended_authoring_errors noopEnv noopServices {} _).2.1 _ none rfl
  · exact (c7_amended_authoring_errors noopEnv noopServices {}
      danglingEdgeFlow).2.2 _ none ⟨"s1", "Start", .start {}⟩ rfl
      (by intro e he hsrc; simp [danglingEdgeFlow] at he; subst he; rfl)
      rfl rfl rfl rfl

/-- Demo flow for C4: node `A` (a Message node whose output text is
`"y"`) has two outgoing edges — the first to `B` (handle/label `"x"`),
the second to `C` (handle/label `"y"`, textually matching the output). -/
def labelHintFlow : FlowDefinition :=
  { id := "f-hint", entryNode := "s1",
    nodes :=
      [⟨"s1", "Start", .start {}⟩,
       ⟨"A", "Route", .message ⟨"y"⟩⟩,
       ⟨"B", "EndB", .endNode { status := "completed" }⟩,
       ⟨"C", "EndC", .endNode { status := "completed" }⟩],
    edges :=
      [⟨"ed1", "s1", "A", none, none⟩,
       ⟨"ed2", "A", "B", some "x", some "x"⟩,
       ⟨"ed3", "A", "C", some "y", some "y"⟩] }

/-- C4 counterexample: no `sourceHandle`/`label` hint matching exists.
In `labelHintFlow` the handler output at `A` contains the text `"y"`,
which matches the second edge's `sourceHandle` and `label` (targeting
`C`), yet the run visits `B` — the engine always takes the first
outgoing edge. -/
theorem c4_counterexample_hint_ignored :
    ((startSession noopEnv noopServices {} labelHintFlow [] "sess").1.map
        (fun s => s.history.map (fun st => st.nodeId)) = .ok ["s1", "A", "B"])
    ∧ ((executeNode noopEnv noopServices ⟨"A", "Route", .message ⟨"y"⟩⟩ [] none).output
        = some (.obj [("message", .str "y")]))
    ∧ ((labelHintFlow.edges.filter (fun e => e.label == some "y")).map
        (fun e => e.target) = ["C"])
    ∧ "B" ≠ "C" := by
  exact ⟨rfl, rfl, rfl, by decide⟩

/-- C4 amended: when a handler returns no `nextNodeId` (and no error,
wait, or end flag), the engine continues to the target of the first
outgoing edge whose target exists (`getNextNodes`), completing the
session when there is none; the handler's output and the edges'
`sourceHandle`/`label` play no role — rewriting every label and
sourceHandle of the flow's edges does not change `getNextNodes` at
all. -/
theorem c4_amended_first_edge_no_hints (env : JsEnv)
    (services : RuntimeServices) (flow : FlowDefinition) (s : SessionState)
    (input : Option String) (node : FlowNode)
    (hfind : findNode flow s.currentNodeId = some node)
    (h1 : (executeNode env services node s.«variables» input).error = none)
    (h2 : (executeNode env services node s.«variables» input).waitForInput = false)
    (h3 : (executeNode env services node s.«variables» input).endFlag = false)
    (h4 : (executeNode env services node s.«variables» input).nextNodeId = none) :
    (runLoopIter env services flow s input =
      match getNextNodes flow node.id with
      | [] => .halt { applyResult s node input
          (executeNode env services node s.«variables» input) with
          status := .completed }
      | n :: _ => .next { applyResult s node input
          (executeNode env services node s.«variables» input) with
          currentNodeId := n.id })
    ∧ (∀ newLabel newHandle : FlowEdge → Option String,
        getNextNodes
          { flow with edges := flow.edges.map (fun e =>
              { e with label := newLabel e, sourceHandle := newHandle e }) }
          node.id
          = getNextNodes flow node.id) := by
  constructor
  · unfold runLoopIter
    rw [hfind]
    simp only [h1, h2, h3, h4, Option.isSome_none, Bool.false_eq_true,
      if_false]
  · intro newLabel newHandle
    unfold getNextNodes findConnectedEdges
    rw [List.filter_map, List.filterMap_map]
    rfl

/-- C4 amended witness: at node `A` of the demo flow the iteration steps
to `B`, the first edge's target, and rewriting every edge's label leaves
`getNextNodes` unchanged. -/
theorem c4_amended_first_edge_no_hints_witness :
    (runLoopIter noopEnv noopServices labelHintFlow
        ⟨"sess", "f-hint", "A", [], [], .active⟩ none
      = .next { applyResult ⟨"sess", "f-hint", "A", [], [], .active⟩
          ⟨"A", "Route", .message ⟨"y"⟩⟩ none
          (executeNode noopEnv noopServices ⟨"A", "Route", .message ⟨"y"⟩⟩ [] none)
          with currentNodeId := "B" })
    ∧ (getNextNodes
        { labelHintFlow with edges := labelHintFlow.edges.map (fun e =>
            { e with label := none, sourceHandle := none }) } "A"
        = getNextNodes labelHintFlow "A") := by
  constructor
  · have h := (c4_amended_first_edge_no_hints noopEnv noopServices
      labelHintFlow ⟨"sess", "f-hint", "A", [], [], .active⟩ none
      ⟨"A", "Route", .message ⟨"y"⟩⟩ rfl rfl rfl rfl rfl).1
    rw [h]
    rfl
  · exact (c4_amended_first_edge_no_hints noopEnv noopServices
      labelHintFlow ⟨"sess", "f-hint", "A", [], [], .active⟩ none
      ⟨"A", "Route", .message ⟨"y"⟩⟩ rfl rfl rfl rfl rfl).2
      (fun _ => none) (fun _ => none)

/-- Whether a `NodeResult` variables patch contains the given key. -/
def patchHasKey (patch : Option Vars) (k : String) : Bool :=
  match patch with
  | some l => l.any (fun q => q.1 == k)
  | none => false

/-- Router config for C5: one intent, configured as its own fallback. -/
def c5RouterCfg : LLMRouterConfig :=
  { systemPrompt := "route", intents := [⟨"help", "needs help", "H"⟩],
    fallbackIntent := some "help", confidenceThreshold := some 1 }

/-- Services for C5 whose `classify` call throws. -/
def c5FailServices : RuntimeServices :=
  ⟨fun _ => .error "llm down", fun _ => .obj [], fun _ => .error "no tool"⟩

/-- The routing result the classify-failure fallback branch produces for
`c5RouterCfg`. -/
def c5FallbackResult : NodeResult :=
  { output := some (.obj
      [("intent", .str "help"), ("confidence", .num 0),
       ("error", .bool true)]),
    «variables» := some [("last_intent", .str "help")],
    nextNodeId := some (some "H") }

/-- C5 counterexample: when `AI.classify` throws and the fallback route
is taken, the handler produces a routing result (explicit `nextNodeId`)
whose variables patch contains `last_intent` but not `last_confidence` —
so not every routing result writes both variables. -/
theorem c5_counterexample_failure_fallback_omits_confidence :
    (handleLLMRouter c5FailServices c5RouterCfg [] (some "hello")
      = .ok c5FallbackResult)
    ∧ patchHasKey c5FallbackResult.«variables» "last_confidence" = false := by
  exact ⟨rfl, rfl⟩

/-- C5 amended: every routing result produced from a *successful*
`AI.classify` call (matched intent, low-confidence fallback, or no-match
fallback) writes both `last_intent` and `last_confidence`; the routing
result produced from a *failed* classify call (rules provider or
configured fallback) writes `last_intent` only. -/
theorem c5_amended_last_intent_confidence (services : RuntimeServices)
    (cfg : LLMRouterConfig) (vars : Vars) (input : Option String) :
    (∀ res r, services.classify (routerRequest cfg vars input) = .ok res →
      handleLLMRouter services cfg vars input = .ok r →
      r.error = none →
      patchHasKey r.«variables» "last_intent" = true
        ∧ patchHasKey r.«variables» "last_confidence" = true)
    ∧ (∀ e r, services.classify (routerRequest cfg vars input) = .error e →
      handleLLMRouter services cfg vars input = .ok r →
      patchHasKey r.«variables» "last_intent" = true
        ∧ patchHasKey r.«variables» "last_confidence" = false) := by
  constructor
  · intro res r hc hok hr
    unfold handleLLMRouter at hok
    rw [hc] at hok
    dsimp only at hok
    split at hok
    · injection hok with hok
      subst hok
      exact ⟨rfl, rfl⟩
    · split at hok
      · injection hok with hok
        subst hok
        exact ⟨rfl, rfl⟩
      · split at hok
        · injection hok with hok
          subst hok
          exact ⟨rfl, rfl⟩
        · injection hok with hok
          subst hok
          simp at hr
  · intro e r hc hok
    unfold handleLLMRouter at hok
    rw [hc] at hok
    dsimp only at hok
    split at hok
    · injection hok with hok
      subst hok
      exact ⟨rfl, rfl⟩
    · cases hok

/-- The routing result a successful classification of `"help"` at
confidence 1 produces for `c5RouterCfg`. -/
def c5OkResult : NodeResult :=
  { output := some (.obj
      [("intent", .str "help"), ("confidence", .num 1)]),
    «variables» := some
      [("last_intent", .str "help"), ("last_confidence", .num 1)],
    nextNodeId := some (some "H") }

/-- C5 amended witness: a successful classification at concrete inputs
writes both variables. -/
theorem c5_amended_last_intent_confidence_witness :
    patchHasKey c5OkResult.«variables» "last_intent" = true
    ∧ patchHasKey c5OkResult.«variables» "last_confidence" = true := by
  exact (c5_amended_last_intent_confidence
    ⟨fun _ => .ok ⟨"help", 1⟩, fun _ => .obj [], fun _ => .error "no tool"⟩
    c5RouterCfg [] (some "hi")).1 ⟨"help", 1⟩ c5OkResult rfl rfl rfl

/-- The session carried by a loop-iteration outcome. -/
def outcomeSession : StepOutcome → SessionState
  | .halt s => s
  | .next s => s

lemma applyResult_history (s : SessionState) (node : FlowNode)
    (input : Option String) (r : NodeResult) :
    (applyResult s node input r).history
      = s.history ++
        [{ nodeId := node.id, nodeType := nodeTypeStr node, input := input,
           output := r.output, error := r.error }] := by
  unfold applyResult
  split <;> rfl

lemma runLoopIter_history_le (env : JsEnv) (services : RuntimeServices)
    (flow : FlowDefinition) (s : SessionState) (input : Option String) :
    (outcomeSession (runLoopIter env services flow s input)).history.length
      ≤ s.history.length + 1 := by
  unfold runLoopIter
  cases h : findNode flow s.currentNodeId with
  | none => simp [outcomeSession]
  | some node =>
    simp only
    split
    · simp [outcomeSession, applyResult_history]
    · split
      · simp [outcomeSession, applyResult_history]
      · split
        · simp [outcomeSession, applyResult_history]
        · split
          · simp [outcomeSession, applyResult_history]
          · simp [outcomeSession, applyResult_history]
          · split
            · simp [outcomeSession, applyResult_history]
            · simp [outcomeSession, applyResult_history]

lemma runLoop_history_le (env : JsEnv) (services : RuntimeServices)
    (flow : FlowDefinition) :
    ∀ (fuel : Nat) (s : SessionState) (input : Option String),
    ((runLoop env services flow fuel s input).1).history.length
      ≤ s.history.length + fuel := by
  intro fuel
  induction fuel with
  | zero => intro s input; simp [runLoop]
  | succ n ih =>
    intro s input
    have hiter := runLoopIter_history_le env services flow s input
    unfold runLoop
    cases hi : runLoopIter env services flow s input with
    | halt s2 =>
      rw [hi] at hiter
      simp only [outcomeSession] at hiter
      simp only
      omega
    | next s2 =>
      rw [hi] at hiter
      simp only [outcomeSession] at hiter
      simp only
      have := ih s2 none
      omega

/-- C3: the engine's run loop performs at most `maxSteps` handler
invocations per public call (each executor invocation appends exactly one
step to the history, so handler invocations are counted by history
growth), the default bound is 100, and whenever all `maxSteps` steps are
consumed (the source's post-loop `steps >= maxSteps` test, equivalently
zero fuel remaining) the session's status is `error`. -/
theorem c3_step_bound (env : JsEnv) (services : RuntimeServices)
    (cfg : EngineConfig) (flow : FlowDefinition) :
    (({} : EngineConfig).maxSteps = 100)
    ∧ (∀ s input, (executeFlow env services cfg flow s input).history.length
        ≤ s.history.length + cfg.maxSteps)
    ∧ (∀ store newId final store2,
        startSession env services cfg flow store newId = (.ok final, store2) →
        final.history.length ≤ cfg.maxSteps)
    ∧ (∀ store sid input s0 final store2,
        storeGet store sid = some s0 →
        processInput env services cfg flow store sid input
          = (.ok final, store2) →
        final.history.length ≤ s0.history.length + cfg.maxSteps)
    ∧ (∀ s input, (runLoop env services flow cfg.maxSteps s input).2 = 0 →
        (executeFlow env services cfg flow s input).status = .error) := by
  have hexec : ∀ s input,
      (executeFlow env services cfg flow s input).history.length
        ≤ s.history.length + cfg.maxSteps := by
    intro s input
    unfold executeFlow
    have := runLoop_history_le env services flow cfg.maxSteps s input
    dsimp only
    split <;> simpa using this
  refine ⟨rfl, hexec, ?_, ?_, ?_⟩
  · intro store newId final store2 h
    unfold startSession at h
    cases hf : findNode flow flow.entryNode with
    | none => rw [hf] at h; simp at h
    | some entry =>
      rw [hf] at h
      simp only [Prod.mk.injEq] at h
      obtain ⟨h1, _⟩ := h
      injection h1 with h1
      subst h1
      refine le_trans (hexec _ none) ?_
      simp
  · intro store sid input s0 final store2 hget h
    unfold processInput at h
    rw [hget] at h
    dsimp only at h
    by_cases hs : s0.status = .waiting_input
    · rw [if_neg (by simp [hs])] at h
      simp only [Prod.mk.injEq] at h
      obtain ⟨h1, _⟩ := h
      injection h1 with h1
      subst h1
      exact hexec _ (some input)
    · rw [if_pos hs] at h
      simp at h
  · intro s input h
    unfold executeFlow
    dsimp only
    rw [h]
    simp

/-- A two-node flow whose Message node loops back to itself, driving the
engine into the step bound. -/
def c3LoopFlow : FlowDefinition :=
  { id := "f-loop", entryNode := "s1",
    nodes := [⟨"s1", "Start", .start {}⟩, ⟨"m1", "M", .message ⟨"hi"⟩⟩],
    edges := [⟨"e1", "s1", "m1", none, none⟩, ⟨"e2", "m1", "m1", none, none⟩] }

/-- C3 witness: with `maxSteps = 3`, the looping flow consumes all fuel
and the theorem forces `status = error`; the default config's bound is
100. -/
theorem c3_step_bound_witness :
    (runLoop noopEnv noopServices c3LoopFlow 3
        ⟨"s", "f-loop", "s1", [], [], .active⟩ none).2 = 0
    ∧ (executeFlow noopEnv noopServices ⟨3⟩ c3LoopFlow
        ⟨"s", "f-loop", "s1", [], [], .active⟩ none).status = .error
    ∧ ({} : EngineConfig).maxSteps = 100 := by
  refine ⟨rfl, ?_, ?_⟩
  · exact (c3_step_bound noopEnv noopServices ⟨3⟩ c3LoopFlow).2.2.2.2
      ⟨"s", "f-loop", "s1", [], [], .active⟩ none rfl
  · exact (c3_step_bound noopEnv noopServices ⟨3⟩ c3LoopFlow).1

/-- The error carried by the last recorded history step, if any. -/
def lastStepErrorCode (s : SessionState) : Option String :=
  (s.history.getLast?.bind ExecutionStep.error).map ExecutionError.code

lemma getLast?_append_singleton {α : Type} (l : List α) (a : α) :
    (l ++ [a]).getLast? = some a := by
  rw [List.getLast?_concat]

lemma executeNode_collect (env : JsEnv) (services : RuntimeServices)
    (node : FlowNode) (c : CollectInputConfig) (vars : Vars)
    (input : Option String) (hconf : node.config = .collect_input c) :
    executeNode env services node vars input
      = handleCollectInput env c vars input := by
  unfold executeNode
  rw [hconf]

lemma runLoopIter_wait (env : JsEnv) (services : RuntimeServices)
    (flow : FlowDefinition) (s : SessionState) (input : Option String)
    (node : FlowNode)
    (hnode : findNode flow s.currentNodeId = some node)
    (h1 : (executeNode env services node s.«variables» input).error = none)
    (h2 : (executeNode env services node s.«variables» input).waitForInput = true) :
    runLoopIter env services flow s input
      = .halt { applyResult s node input
          (executeNode env services node s.«variables» input) with
          status := .waiting_input } := by
  unfold runLoopIter
  rw [hnode]
  dsimp only
  simp only [h1, h2, Option.isSome_none, Bool.false_eq_true, if_false, if_true]

lemma runLoopIter_error (env : JsEnv) (services : RuntimeServices)
    (flow : FlowDefinition) (s : SessionState) (input : Option String)
    (node : FlowNode) (err : ExecutionError)
    (hnode : findNode flow s.currentNodeId = some node)
    (h1 : (executeNode env services node s.«variables» input).error = some err) :
    runLoopIter env services flow s input
      = .halt { applyResult s node input
          (executeNode env services node s.«variables» input) with
          status := .error } := by
  unfold runLoopIter
  rw [hnode]
  dsimp only
  simp only [h1, Option.isSome_some, if_true]

lemma processInput_one_halt (env : JsEnv) (services : RuntimeServices)
    (cfg : EngineConfig) (flow : FlowDefinition) (store : SessionStore)
    (sid input : String) (s : SessionState) (R : SessionState)
    (hms : 2 ≤ cfg.maxSteps)
    (hstore : storeGet store sid = some s)
    (hstat : s.status = .waiting_input)
    (hiter : runLoopIter env services flow { s with status := .active }
        (some input) = .halt R) :
    processInput env services cfg flow store sid input
      = (.ok R, storeSet store R) := by
  have hEF : executeFlow env services cfg flow { s with status := .active }
      (some input) = R := by
    unfold executeFlow
    obtain ⟨m, hm⟩ : ∃ m, cfg.maxSteps = m + 2 := ⟨cfg.maxSteps - 2, by omega⟩
    rw [hm]
    dsimp only
    have hrun : runLoop env services flow (m + 1 + 1)
        { s with status := .active } (some input) = (R, m + 1) := by
      simp only [runLoop, hiter]
    rw [show m + 2 = m + 1 + 1 from rfl, hrun]
    simp
  unfold processInput
  rw [hstore]
  dsimp only
  rw [if_neg (by rw [hstat]; simp), hEF]

/-- The retry branch of `handleCollectInput`: an invalid input while the
counter is below `maxAttempts` emits `retryMessage`, bumps the counter
and waits for input again. -/
lemma collect_retry_handler (env : JsEnv) (c : CollectInputConfig)
    (v : InputValidation) (n k : ℚ) (msg : String) (vars : Vars)
    (inp : String)
    (hval : c.validation = some v)
    (hretry : c.retry = some ⟨n, msg⟩)
    (hinv : validateInput env inp (some v) = false)
    (hatt : jsAsNumberOr0 (getVar vars (c.variableName ++ "_attempts")) = k)
    (hk : k < n) :
    handleCollectInput env c vars (some inp)
      = { message := some msg,
          «variables» := some [(c.variableName ++ "_attempts", .num (k + 1))],
          waitForInput := true, nextNodeId := some none } := by
  unfold handleCollectInput
  dsimp only
  rw [hval]
  dsimp only
  rw [hinv]
  simp only [Bool.not_false, if_true]
  rw [hretry]
  dsimp only
  rw [hatt, if_neg (not_le.mpr hk)]

/-- The exhausted branch of `handleCollectInput`: an invalid input while
the counter has reached `maxAttempts` returns the fatal
`MAX_RETRIES_EXCEEDED` error. -/
lemma collect_retry_exhausted_handler (env : JsEnv) (c : CollectInputConfig)
    (v : InputValidation) (n k : ℚ) (msg : String) (vars : Vars)
    (inp : String)
    (hval : c.validation = some v)
    (hretry : c.retry = some ⟨n, msg⟩)
    (hinv : validateInput env inp (some v) = false)
    (hatt : jsAsNumberOr0 (getVar vars (c.variableName ++ "_attempts")) = k)
    (hk : n ≤ k) :
    handleCollectInput env c vars (some inp)
      = { error := some
              { code := "MAX_RETRIES_EXCEEDED",
                message := "Maximum retry attempts (" ++ ratToJsString n
                  ++ ") exceeded" } } := by
  unfold handleCollectInput
  dsimp only
  rw [hval]
  dsimp only
  rw [hinv]
  simp only [Bool.not_false, if_true]
  rw [hretry]
  dsimp only
  rw [hatt, if_pos hk]

/-- One `processInput` turn with an invalid input while the retry counter
is still below `maxAttempts`: the session stays waiting at the same node
with the counter bumped, and exactly one step is recorded. -/
lemma collect_retry_step (env : JsEnv) (services : RuntimeServices)
    (cfg : EngineConfig) (flow : FlowDefinition) (store : SessionStore)
    (sid input : String) (s : SessionState) (node : FlowNode)
    (c : CollectInputConfig) (v : InputValidation) (n k : ℚ) (msg : String)
    (hms : 2 ≤ cfg.maxSteps)
    (hstore : storeGet store sid = some s)
    (hstat : s.status = .waiting_input)
    (hnode : findNode flow s.currentNodeId = some node)
    (hconf : node.config = .collect_input c)
    (hval : c.validation = some v)
    (hretry : c.retry = some ⟨n, msg⟩)
    (hinv : validateInput env input (some v) = false)
    (hatt : jsAsNumberOr0 (getVar s.«variables» (c.variableName ++ "_attempts")) = k)
    (hk : k < n) :
    ∃ s2, processInput env services cfg flow store sid input
        = (.ok s2, storeSet store s2)
      ∧ s2.id = s.id ∧ s2.status = .waiting_input
      ∧ s2.currentNodeId = s.currentNodeId
      ∧ jsAsNumberOr0 (getVar s2.«variables» (c.variableName ++ "_attempts"))
          = k + 1
      ∧ s2.history.length = s.history.length + 1 := by
  have hhandler := collect_retry_handler env c v n k msg s.«variables» input
    hval hretry hinv hatt hk
  have hexecN : executeNode env services node s.«variables» (some input)
      = { message := some msg,
          «variables» := some [(c.variableName ++ "_attempts", .num (k + 1))],
          waitForInput := true, nextNodeId := some none } :=
    (executeNode_collect env services node c s.«variables» (some input)
      hconf).trans hhandler
  have hiter := runLoopIter_wait env services flow { s with status := .active }
    (some input) node hnode (by rw [hexecN]) (by rw [hexecN])
  refine ⟨_, processInput_one_halt env services cfg flow store sid input s _
    hms hstore hstat hiter, ?_, rfl, ?_, ?_, ?_⟩
  · show (applyResult { s with status := .active } node (some input) _).id = s.id
    unfold applyResult
    rw [hexecN]
  · show (applyResult { s with status := .active } node (some input) _).currentNodeId
      = s.currentNodeId
    unfold applyResult
    rw [hexecN]
  · show jsAsNumberOr0 (getVar
      (applyResult { s with status := .active } node (some input)
        (executeNode env services node s.«variables» (some input))).«variables»
      (c.variableName ++ "_attempts")) = k + 1
    rw [hexecN]
    unfold applyResult
    dsimp only
    rw [getVar_assign_single]
    rfl
  · show (applyResult { s with status := .active } node (some input) _).history.length
      = s.history.length + 1
    rw [applyResult_history]
    simp

/-- One `processInput` turn with an invalid input once the retry counter
has reached `maxAttempts`: the run ends with `status = error` and the
recorded step carries the fatal `MAX_RETRIES_EXCEEDED` error. -/
lemma collect_retry_exhausted_step (env : JsEnv) (services : RuntimeServices)
    (cfg : EngineConfig) (flow : FlowDefinition) (store : SessionStore)
    (sid input : String) (s : SessionState) (node : FlowNode)
    (c : CollectInputConfig) (v : InputValidation) (n k : ℚ) (msg : String)
    (hms : 2 ≤ cfg.maxSteps)
    (hstore : storeGet store sid = some s)
    (hstat : s.status = .waiting_input)
    (hnode : findNode flow s.currentNodeId = some node)
    (hconf : node.config = .collect_input c)
    (hval : c.validation = some v)
    (hretry : c.retry = some ⟨n, msg⟩)
    (hinv : validateInput env input (some v) = false)
    (hatt : jsAsNumberOr0 (getVar s.«variables» (c.variableName ++ "_attempts")) = k)
    (hk : n ≤ k) :
    ∃ s3, processInput env services cfg flow store sid input
        = (.ok s3, storeSet store s3)
      ∧ s3.status = .error
      ∧ lastStepErrorCode s3 = some "MAX_RETRIES_EXCEEDED" := by
  have hhandler := collect_retry_exhausted_handler env c v n k msg
    s.«variables» input hval hretry hinv hatt hk
  have hexecN : executeNode env services node s.«variables» (some input)
      = { error := some
              { code := "MAX_RETRIES_EXCEEDED",
                message := "Maximum retry attempts (" ++ ratToJsString n
                  ++ ") exceeded" } } :=
    (executeNode_collect env services node c s.«variables» (some input)
      hconf).trans hhandler
  have hiter := runLoopIter_error env services flow { s with status := .active }
    (some input) node _ hnode (by rw [hexecN])
  refine ⟨_, processInput_one_halt env services cfg flow store sid input s _
    hms hstore hstat hiter, rfl, ?_⟩
  show lastStepErrorCode { applyResult { s with status := .active } node
    (some input) (executeNode env services node s.«variables» (some input))
    with status := .error } = some "MAX_RETRIES_EXCEEDED"
  unfold lastStepErrorCode
  have hh : ({ applyResult { s with status := .active } node (some input)
      (executeNode env services node s.«variables» (some input))
      with status := SessionStatus.error }).history
      = s.history ++
        [{ nodeId := node.id, nodeType := nodeTypeStr node,
           input := some input,
           output := (executeNode env services node s.«variables» (some input)).output,
           error := (executeNode env services node s.«variables» (some input)).error }] := by
    exact applyResult_history _ _ _ _
  rw [hh, getLast?_append_singleton]
  rw [hexecN]
  rfl

/-- Feeding any number of consecutive invalid inputs while they fit under
`maxAttempts` keeps the session waiting at the Collect-Input node and
advances the attempt counter by one per input. -/
lemma collect_retry_chain (env : JsEnv) (services : RuntimeServices)
    (cfg : EngineConfig) (flow : FlowDefinition) (sid : String)
    (node : FlowNode) (c : CollectInputConfig) (v : InputValidation)
    (n : ℕ) (msg : String)
    (hms : 2 ≤ cfg.maxSteps)
    (hconf : node.config = .collect_input c)
    (hval : c.validation = some v)
    (hretry : c.retry = some ⟨(n : ℚ), msg⟩) :
    ∀ (inputs : List String) (store : SessionStore) (s : SessionState) (k : ℕ),
    (∀ i ∈ inputs, validateInput env i (some v) = false) →
    k + inputs.length ≤ n →
    findNode flow s.currentNodeId = some node →
    s.id = sid → s.status = .waiting_input →
    jsAsNumberOr0 (getVar s.«variables» (c.variableName ++ "_attempts")) = (k : ℚ) →
    storeGet store sid = some s →
    ∃ s2 store2, feedInputs env services cfg flow sid store inputs
        = .ok (s2, store2)
      ∧ storeGet store2 sid = some s2
      ∧ findNode flow s2.currentNodeId = some node
      ∧ s2.id = sid ∧ s2.status = .waiting_input
      ∧ jsAsNumberOr0 (getVar s2.«variables» (c.variableName ++ "_attempts"))
          = ((k + inputs.length : ℕ) : ℚ) := by
  intro inputs
  induction inputs with
  | nil =>
    intro store s k hall hbound hnode hsid hstat hatt hstore
    refine ⟨s, store, ?_, hstore, hnode, hsid, hstat, by simpa using hatt⟩
    unfold feedInputs
    rw [hstore]
  | cons i rest ih =>
    intro store s k hall hbound hnode hsid hstat hatt hstore
    have hki : (k : ℚ) < (n : ℚ) := by
      have : k < n := by
        simp only [List.length_cons] at hbound
        omega
      exact_mod_cast this
    obtain ⟨s2, hproc, hid2, hstat2, hcur2, hatt2, _⟩ :=
      collect_retry_step env services cfg flow store sid i s node c v
        (n : ℚ) (k : ℚ) msg hms hstore hstat hnode hconf hval hretry
        (hall i (by simp)) hatt hki
    have hnode2 : findNode flow s2.currentNodeId = some node := by
      rw [hcur2]; exact hnode
    have hsid2 : s2.id = sid := by rw [hid2]; exact hsid
    have hstore2 : storeGet (storeSet store s2) sid = some s2 := by
      have := storeGet_storeSet_self store s2
      rw [hsid2] at this
      exact this
    have hatt2n : jsAsNumberOr0
        (getVar s2.«variables» (c.variableName ++ "_attempts"))
        = ((k + 1 : ℕ) : ℚ) := by
      rw [hatt2]; push_cast; ring
    have hbound2 : (k + 1) + rest.length ≤ n := by
      simp only [List.length_cons] at hbound
      omega
    obtain ⟨s3, store3, hfeed, hstore3, hnode3, hsid3, hstat3, hatt3⟩ :=
      ih (storeSet store s2) s2 (k + 1) (fun j hj => hall j (by simp [hj]))
        hbound2 hnode2 hsid2 hstat2 hatt2n hstore2
    refine ⟨s3, store3, ?_, hstore3, hnode3, hsid3, hstat3, ?_⟩
    · unfold feedInputs
      rw [hproc]
      exact hfeed
    · rw [hatt3]
      congr 1
      simp only [List.length_cons]
      omega

/-- Collect-Input config for C2: text validation (min length 5) with
`retry = \x7bmaxAttempts: 1, retryMessage: "Try again."\x7d`. -/
def c2CollectCfg : CollectInputConfig :=
  { prompt := some "Say something", variableName := "x",
    validation := some { type := "text", minLength := some 5 },
    retry := some ⟨1, "Try again."⟩ }

/-- Demo flow for C2: Start, the retrying Collect-Input node, End. -/
def c2DemoFlow : FlowDefinition :=
  { id := "f-retry", entryNode := "s1",
    nodes :=
      [⟨"s1", "Start", .start {}⟩,
       ⟨"c1", "Collect", .collect_input c2CollectCfg⟩,
       ⟨"e1", "End", .endNode { status := "completed" }⟩],
    edges :=
      [⟨"ed1", "s1", "c1", none, none⟩, ⟨"ed2", "c1", "e1", none, none⟩] }

/-- C2 counterexample: with `maxAttempts = 1`, the claim says the 1st
invalid input already ends the run with the fatal `MAX_RETRIES_EXCEEDED`.
On the code, the counter check runs before the increment, so the 1st
invalid input merely re-prompts: the session is left `waiting_input`,
with no error recorded on the step. -/
theorem c2_counterexample_nth_invalid_reprompts :
    ((processInput noopEnv noopServices {} c2DemoFlow
        (startSession noopEnv noopServices {} c2DemoFlow [] "sess").2
        "sess" "bad").1.map SessionState.status = .ok .waiting_input)
    ∧ ((processInput noopEnv noopServices {} c2DemoFlow
        (startSession noopEnv noopServices {} c2DemoFlow [] "sess").2
        "sess" "bad").1.map lastStepErrorCode = .ok none)
    ∧ SessionStatus.waiting_input ≠ SessionStatus.error := by
  exact ⟨rfl, rfl, by decide⟩

/-- C2 amended: with `retry = \x7bmaxAttempts: n\x7d`, each of the first
`n` consecutive invalid inputs increments the per-variable counter
`variableName_attempts`, emits `retry.retryMessage` and waits for input
again; the fatal `MAX_RETRIES_EXCEEDED` happens one turn later, on the
(n+1)-th consecutive invalid input (the handler checks the counter
before incrementing it). -/
theorem c2_amended_error_on_n_plus_first_invalid (env : JsEnv)
    (services : RuntimeServices) (cfg : EngineConfig) (flow : FlowDefinition)
    (store : SessionStore) (sid : String) (s : SessionState)
    (node : FlowNode) (c : CollectInputConfig) (v : InputValidation)
    (n : ℕ) (msg : String) (inputs : List String) (extra : String)
    (hms : 2 ≤ cfg.maxSteps)
    (hnode : findNode flow s.currentNodeId = some node)
    (hconf : node.config = .collect_input c)
    (hval : c.validation = some v)
    (hretry : c.retry = some ⟨(n : ℚ), msg⟩)
    (hinputs : ∀ i ∈ inputs, validateInput env i (some v) = false)
    (hlen : inputs.length = n)
    (hextra : validateInput env extra (some v) = false)
    (hsid : s.id = sid) (hstat : s.status = .waiting_input)
    (hatt : jsAsNumberOr0 (getVar s.«variables» (c.variableName ++ "_attempts")) = 0)
    (hstore : storeGet store sid = some s) :
    (∀ (vars : Vars) (inp : String) (k : ℚ),
      validateInput env inp (some v) = false →
      jsAsNumberOr0 (getVar vars (c.variableName ++ "_attempts")) = k →
      k < (n : ℚ) →
      handleCollectInput env c vars (some inp)
        = { message := some msg,
            «variables» := some [(c.variableName ++ "_attempts", .num (k + 1))],
            waitForInput := true, nextNodeId := some none })
    ∧ ∃ s2 store2, feedInputs env services cfg flow sid store inputs
        = .ok (s2, store2)
      ∧ s2.status = .waiting_input
      ∧ jsAsNumberOr0 (getVar s2.«variables» (c.variableName ++ "_attempts"))
          = (n : ℚ)
      ∧ ∃ s3, processInput env services cfg flow store2 sid extra
            = (.ok s3, storeSet store2 s3)
        ∧ s3.status = .error
        ∧ lastStepErrorCode s3 = some "MAX_RETRIES_EXCEEDED" := by
  constructor
  · intro vars inp k hbad hk hlt
    exact collect_retry_handler env c v (n : ℚ) k msg vars inp hval hretry
      hbad hk hlt
  · obtain ⟨s2, store2, hfeed, hstore2, hnode2, hsid2, hstat2, hatt2⟩ :=
      collect_retry_chain env services cfg flow sid node c v n msg hms hconf
        hval hretry inputs store s 0 hinputs (by omega) hnode hsid hstat
        (by simpa using hatt) hstore
    obtain ⟨s3, hproc, hstat3, hcode3⟩ :=
      collect_retry_exhausted_step env services cfg flow store2 sid extra s2
        node c v (n : ℚ) ((0 + inputs.length : ℕ) : ℚ) msg hms hstore2 hstat2
        hnode2 hconf hval hretry hextra hatt2
        (by simp [hlen])
    exact ⟨s2, store2, hfeed, hstat2,
      by rw [hatt2]; simp [hlen], s3, hproc, hstat3, hcode3⟩

/-- C2 amended witness: the theorem applied to the demo flow with
`maxAttempts = 1`, one invalid input `"bad"` and an invalid extra input:
the first turn waits with the counter at 1, the second errors with
`MAX_RETRIES_EXCEEDED`. -/
theorem c2_amended_error_on_n_plus_first_invalid_witness :
    ∃ s2 store2, feedInputs noopEnv noopServices {} c2DemoFlow "sess"
        [("sess", ⟨"sess", "f-retry", "c1", [], [], .waiting_input⟩)] ["bad"]
        = .ok (s2, store2)
      ∧ s2.status = .waiting_input
      ∧ jsAsNumberOr0 (getVar s2.«variables» ("x" ++ "_attempts"))
          = ((1 : ℕ) : ℚ)
      ∧ ∃ s3, processInput noopEnv noopServices {} c2DemoFlow store2 "sess"
            "bad" = (.ok s3, storeSet store2 s3)
        ∧ s3.status = .error
        ∧ lastStepErrorCode s3 = some "MAX_RETRIES_EXCEEDED" := by
  exact (c2_amended_error_on_n_plus_first_invalid noopEnv noopServices {}
    c2DemoFlow [("sess", ⟨"sess", "f-retry", "c1", [], [], .waiting_input⟩)]
    "sess" ⟨"sess", "f-retry", "c1", [], [], .waiting_input⟩
    ⟨"c1", "Collect", .collect_input c2CollectCfg⟩ c2CollectCfg
    { type := "text", minLength := some 5 } 1 "Try again." ["bad"] "bad"
    (by decide) rfl rfl rfl (by norm_num [c2CollectCfg])
    (by intro i hi; simp at hi; subst hi; rfl) rfl rfl rfl rfl rfl rfl).2

/-- C10 witness: the theorem applied at a concrete validation
(`min` unset, `max = 10`). -/
theorem c10_empty_string_passes_number_validation_witness :
    validateInput ⟨fun _ _ => none⟩ ""
        (some { type := "number", max := some 10 }) = true := by
  exact (c10_empty_string_passes_number_validation ⟨fun _ _ => none⟩
    { type := "number", max := some 10 }
    { variableName := "x",
      validation := some { type := "number", max := some 10 } }
    [] rfl (by intro m h; cases h) (by intro m h; injection h with h; rw [← h]; norm_num)
    rfl).2.1

end IVAkit
